import Mathlib

/-!
Shallow embedding of the strikechart streaming-detector core
(src/core/dataStore.ts, src/detectors/{volatility,volume,winRate,funding}.ts
and the velocity detector / SmartSignalEngine that live in the same files),
with theorems checking the natural-language specification against it.

All JS numbers are modelled as exact rationals (ℚ); timestamps are integers
of milliseconds.  JS `Map` objects are modelled as insertion-ordered
association lists, matching JS iteration order.  `Array.prototype.sort`
is a stable sort; it is modelled by the stable insertion sort `sortDesc`.
-/

namespace Strikechart

/-- Direction tag of a fused signal component (BULLISH/BEARISH/NEUTRAL). -/
inductive CompDir
  | bullish
  | bearish
  | neutral
deriving DecidableEq, Repr

/-- Trade direction of an alert or smart signal (LONG/SHORT/NEUTRAL). -/
inductive TradeDir
  | long
  | short
  | neutral
deriving DecidableEq, Repr

/-- `SignalComponent` from volume.ts: one weighted detector vote. -/
structure SignalComponent where
  name : String
  direction : CompDir
  strength : ℚ
  weight : ℚ
deriving DecidableEq, Repr

/-- Weighted strength `(signal.strength / 100) * signal.weight` used in
`SmartSignalEngine.calculateConfluence`. -/
def weightedStrength (s : SignalComponent) : ℚ :=
  s.strength / 100 * s.weight

/-- `totalWeight` accumulated in the `calculateConfluence` loop. -/
def totalWeight (signals : List SignalComponent) : ℚ :=
  (signals.map (fun s => s.weight)).sum

/-- `bullishScore` accumulated in the `calculateConfluence` loop. -/
def bullishScore (signals : List SignalComponent) : ℚ :=
  ((signals.filter (fun s => decide (s.direction = CompDir.bullish))).map weightedStrength).sum

/-- `bearishScore` accumulated in the `calculateConfluence` loop. -/
def bearishScore (signals : List SignalComponent) : ℚ :=
  ((signals.filter (fun s => decide (s.direction = CompDir.bearish))).map weightedStrength).sum

/-- `netScore = bullishScore - bearishScore` in `calculateConfluence`. -/
def netScore (signals : List SignalComponent) : ℚ :=
  bullishScore signals - bearishScore signals

/-- `alignedSignals`: components matching the sign of `netScore`. -/
def alignedSignals (signals : List SignalComponent) : ℕ :=
  (signals.filter (fun s =>
    decide ((0 < netScore signals ∧ s.direction = CompDir.bullish) ∨
      (netScore signals < 0 ∧ s.direction = CompDir.bearish)))).length

/-- Result triple of `SmartSignalEngine.calculateConfluence`. -/
structure ConfluenceResult where
  direction : TradeDir
  confluenceScore : ℚ
  confidence : ℚ
deriving DecidableEq, Repr

/-- `SmartSignalEngine.calculateConfluence` (volume.ts lines 766-804):
weighted fusion of the component list into direction, confluence score and
confidence. -/
def calculateConfluence (signals : List SignalComponent) : ConfluenceResult :=
  let maxScore := totalWeight signals
  let net := netScore signals
  let confluenceScore := |net| / maxScore * 100
  let alignmentBonus := ((alignedSignals signals : ℚ) / (signals.length : ℚ)) * 20
  let confidence := min 100 (confluenceScore + alignmentBonus)
  let direction : TradeDir :=
    if net > 10 then TradeDir.long
    else if net < -10 then TradeDir.short
    else TradeDir.neutral
  { direction := direction, confluenceScore := confluenceScore, confidence := confidence }

/-- `SmartSignalEngine.calculateCombinedConfidence` (volume.ts lines 433-448),
parameterised by the engine fields `mlWeight` and `ruleWeight`. -/
def calculateCombinedConfidence (mlWeight ruleWeight mlWinProb ruleConfidence : ℚ) : ℚ :=
  let mlScore := mlWinProb * 100
  let combined := mlScore * mlWeight + ruleConfidence * ruleWeight
  let combined :=
    if (mlScore > 60 ∧ ruleConfidence > 60) ∨ (mlScore < 40 ∧ ruleConfidence < 40) then
      combined * 1.1
    else combined
  let combined := if |mlScore - ruleConfidence| > 30 then combined * 0.9 else combined
  min 100 (max 0 combined)

/-- ML blend as worded by the spec (§4.3): `base = ml*w_ml + ruleConf*w_rule`,
times 1.1 on strong agreement, times 0.9 on disagreement beyond 30, clamped
to [0, 100].  Stated for comparison with `calculateCombinedConfidence`. -/
def combinedConfidenceSpec (wMl wRule mlWinProb ruleConf : ℚ) : ℚ :=
  let ml := mlWinProb * 100
  let base := ml * wMl + ruleConf * wRule
  let base :=
    if (ml > 60 ∧ ruleConf > 60) ∨ (ml < 40 ∧ ruleConf < 40) then base * 1.1 else base
  let base := if |ml - ruleConf| > 30 then base * 0.9 else base
  min 100 (max 0 base)

/-- Six components of the spec's fusion scenario (§8 scenario 3). -/
def fusionSignals : List SignalComponent :=
  [ { name := "Price Movement", direction := CompDir.bullish, strength := 60, weight := 20 }
  , { name := "Volume", direction := CompDir.bullish, strength := 70, weight := 15 }
  , { name := "Velocity", direction := CompDir.bullish, strength := 55, weight := 20 }
  , { name := "Funding Rate", direction := CompDir.neutral, strength := 30, weight := 15 }
  , { name := "Open Interest", direction := CompDir.bullish, strength := 50, weight := 10 }
  , { name := "Multi-Timeframe", direction := CompDir.bullish, strength := 80, weight := 20 } ]

/-- `TickerData` parsed from the exchange stream (binance/websocket.ts
`parseTicker`). -/
structure TickerData where
  symbol : String
  lastPrice : ℚ
  priceChange : ℚ
  priceChangePercent : ℚ
  openPrice : ℚ
  highPrice : ℚ
  lowPrice : ℚ
  volume : ℚ
  quoteVolume : ℚ
  trades : ℕ
  eventTime : ℤ
deriving DecidableEq, Repr

/-- `VolumeAlert` emitted by `VolumeDetector.detect`. -/
structure VolumeAlert where
  symbol : String
  currentVolume : ℚ
  averageVolume : ℚ
  multiplier : ℚ
  priceChange : ℚ
  timestamp : ℤ
deriving DecidableEq, Repr

/-- Trend classification of `VelocityDetector` alerts. -/
inductive VelTrend
  | accelerating
  | steady
  | decelerating
deriving DecidableEq, Repr

/-- `VelocityAlert` emitted by `VelocityDetector.detect`. -/
structure VelocityAlert where
  symbol : String
  velocity : ℚ
  acceleration : ℚ
  trend : VelTrend
  timestamp : ℤ
deriving DecidableEq, Repr

/-- `VolatilityAlert` emitted by `VolatilityDetector.detect`. -/
structure VolatilityAlert where
  symbol : String
  change24h : ℚ
  direction : TradeDir
  isCritical : Bool
  lastPrice : ℚ
  timestamp : ℤ
deriving DecidableEq, Repr

/-- Signal classification of a `FundingAlert` (funding.ts). -/
inductive FundingSignalKind
  | longSqueeze
  | shortSqueeze
  | extremePositive
  | extremeNegative
  | normal
deriving DecidableEq, Repr

/-- Strength band of a `FundingAlert`. -/
inductive FundingStrength
  | high
  | medium
  | low
deriving DecidableEq, Repr

/-- `FundingAlert` cached per symbol by `FundingDetector`. -/
structure FundingAlert where
  symbol : String
  fundingRate : ℚ
  nextFundingTime : ℤ
  markPrice : ℚ
  priceChange24h : ℚ
  signal : FundingSignalKind
  strength : FundingStrength
deriving DecidableEq, Repr

/-- Signal classification of an `OIAlert` (openInterest.ts). -/
inductive OISignalKind
  | strongTrend
  | buildingShorts
  | buildingLongs
  | closingPositions
  | neutral
deriving DecidableEq, Repr

/-- `OIAlert` produced by `OpenInterestDetector.analyze`. -/
structure OIAlert where
  symbol : String
  openInterest : ℚ
  oiChange : ℚ
  priceChange : ℚ
  signal : OISignalKind
  direction : CompDir
  timestamp : ℤ
deriving DecidableEq, Repr

/-- Alignment classification of an `MTFAlert` (multiTimeframe.ts). -/
inductive MTFAlignment
  | strongBullish
  | bullish
  | mixed
  | bearish
  | strongBearish
deriving DecidableEq, Repr

/-- Divergence classification of an `MTFAlert`. -/
inductive MTFDivergence
  | bullishDiv
  | bearishDiv
  | none
deriving DecidableEq, Repr

/-- Momentum classification of an `MTFAlert`. -/
inductive MTFMomentum
  | accelerating
  | decelerating
  | steady
deriving DecidableEq, Repr

/-- `MTFAlert` cached per symbol by `MultiTimeframeDetector`. -/
structure MTFAlert where
  symbol : String
  change15m : ℚ
  change1h : ℚ
  change4h : ℚ
  change24h : ℚ
  rsi1h : ℚ
  alignment : MTFAlignment
  divergence : MTFDivergence
  momentum : MTFMomentum
  timestamp : ℤ
deriving DecidableEq, Repr

/-- Entry type of a `SmartSignal`. -/
inductive EntryType
  | early
  | momentum
  | reversal
  | breakout
deriving DecidableEq, Repr

/-- Risk level of a `SmartSignal`. -/
inductive RiskLevel
  | low
  | medium
  | high
deriving DecidableEq, Repr

/-- `SmartSignal` produced by `SmartSignalEngine.analyzeSymbol`.  The
optional ML-enhancement fields (set only by `enhanceWithML`) are omitted:
no claim touches them. -/
structure SmartSignal where
  symbol : String
  direction : TradeDir
  confidence : ℚ
  confluenceScore : ℚ
  signals : List SignalComponent
  reasoning : List String
  entryType : EntryType
  riskLevel : RiskLevel
  price : ℚ
  timestamp : ℤ
deriving DecidableEq, Repr

/-- Reversal direction of a `ReversalSignal`. -/
inductive ReversalType
  | bullishReversal
  | bearishReversal
deriving DecidableEq, Repr

/-- `ReversalSignal` produced by `SmartSignalEngine.detectReversal`. -/
structure ReversalSignal where
  symbol : String
  type : ReversalType
  confidence : ℚ
  triggers : List String
  price : ℚ
  potentialTarget : ℚ
  stopLoss : ℚ
deriving DecidableEq, Repr

/-- What the engine reads about one symbol when analysing it: the stored
ticker (`dataStore.getSymbol`), the symbol's entry in the volume spikes
(`volumeDetector.getTopSpikes(...).find`), the symbol's velocity alert
(`velocityDetector.getTopVelocity(...).find`), and the cached funding, OI
and MTF alerts (`*.getSymbol`). -/
structure DetectorView where
  ticker : Option TickerData
  volumeSpike : Option VolumeAlert
  velocityAlert : Option VelocityAlert
  fundingAlert : Option FundingAlert
  oiAlert : Option OIAlert
  mtfAlert : Option MTFAlert
deriving DecidableEq, Repr

/-- `SmartSignalEngine.analyzePriceMovement` (volume.ts lines 599-615). -/
def analyzePriceMovement (ticker : Option TickerData) : Option SignalComponent :=
  match ticker with
  | Option.none => Option.none
  | some t =>
    let change := t.priceChangePercent
    let strength := min 100 (|change| * 5)
    some { name := "Price Movement"
         , direction :=
             if change > 0 then CompDir.bullish
             else if change < 0 then CompDir.bearish
             else CompDir.neutral
         , strength := strength
         , weight := 20 }

/-- `SmartSignalEngine.analyzeVolume` (volume.ts lines 617-640). -/
def analyzeVolume (spike : Option VolumeAlert) (ticker : Option TickerData) :
    Option SignalComponent :=
  match spike with
  | Option.none =>
    some { name := "Volume", direction := CompDir.neutral, strength := 30, weight := 15 }
  | some spike =>
    let strength := min 100 (spike.multiplier * 20)
    let dir :=
      match ticker with
      | some t => if t.priceChangePercent > 0 then CompDir.bullish else CompDir.bearish
      | Option.none => CompDir.bearish
    some { name := "Volume", direction := dir, strength := strength, weight := 15 }

/-- `SmartSignalEngine.analyzeVelocity` (volume.ts lines 642-664). -/
def analyzeVelocity (velocity : Option VelocityAlert) : Option SignalComponent :=
  match velocity with
  | Option.none =>
    some { name := "Velocity", direction := CompDir.neutral, strength := 20, weight := 20 }
  | some v =>
    let strength := min 100 (|v.velocity| * 50)
    some { name := "Velocity"
         , direction := if v.velocity > 0 then CompDir.bullish else CompDir.bearish
         , strength := strength
         , weight := 20 }

/-- `SmartSignalEngine.analyzeFunding` (volume.ts lines 666-685). -/
def analyzeFunding (fundingAlert : Option FundingAlert) : Option SignalComponent :=
  match fundingAlert with
  | Option.none => Option.none
  | some fa =>
    let funding := fa.fundingRate
    let strength := min 100 (|funding| * 1000)
    some { name := "Funding Rate"
         , direction :=
             if funding < -0.01 then CompDir.bullish
             else if funding > 0.05 then CompDir.bearish
             else CompDir.neutral
         , strength := strength
         , weight := 15 }

/-- `SmartSignalEngine.analyzeOpenInterest` (volume.ts lines 687-722). -/
def analyzeOpenInterest (oiData : Option OIAlert) (ticker : Option TickerData) :
    Option SignalComponent :=
  match oiData with
  | Option.none => Option.none
  | some oiData =>
    match ticker with
    | Option.none => Option.none
    | some t =>
      let oiChange := oiData.oiChange
      let priceChange := t.priceChangePercent
      let strength := min 100 (|oiChange| * 10)
      let dirStrength : CompDir × ℚ :=
        if oiChange > 2 ∧ priceChange > 2 then (CompDir.bullish, min 100 (strength * 1.5))
        else if oiChange > 2 ∧ priceChange < -2 then (CompDir.bearish, min 100 (strength * 1.5))
        else if oiChange < -2 ∧ priceChange > 2 then (CompDir.bearish, strength)
        else if oiChange < -2 ∧ priceChange < -2 then (CompDir.bullish, strength)
        else (CompDir.neutral, strength)
      some { name := "Open Interest"
           , direction := dirStrength.1
           , strength := dirStrength.2
           , weight := 10 }

/-- `SmartSignalEngine.analyzeMTF` (volume.ts lines 724-764). -/
def analyzeMTF (mtfData : Option MTFAlert) : Option SignalComponent :=
  match mtfData with
  | Option.none => Option.none
  | some mtfData =>
    let dirStrength : CompDir × ℚ :=
      match mtfData.alignment with
      | MTFAlignment.strongBullish => (CompDir.bullish, 100)
      | MTFAlignment.bullish => (CompDir.bullish, 75)
      | MTFAlignment.strongBearish => (CompDir.bearish, 100)
      | MTFAlignment.bearish => (CompDir.bearish, 75)
      | MTFAlignment.mixed => (CompDir.neutral, 30)
    let strength :=
      if mtfData.divergence ≠ MTFDivergence.none then min 100 (dirStrength.2 + 20)
      else dirStrength.2
    some { name := "Multi-Timeframe"
         , direction := dirStrength.1
         , strength := strength
         , weight := 20 }

/-- `SmartSignalEngine.determineEntryType` (volume.ts lines 806-834). -/
def determineEntryType (signals : List SignalComponent) (mtfData : Option MTFAlert) :
    EntryType :=
  let volumeSignal := signals.find? (fun s => decide (s.name = "Volume"))
  let velocitySignal := signals.find? (fun s => decide (s.name = "Velocity"))
  let mtfSignal := signals.find? (fun s => decide (s.name = "Multi-Timeframe"))
  let fundingSignal := signals.find? (fun s => decide (s.name = "Funding Rate"))
  if Option.any (fun (m : MTFAlert) => decide (m.divergence ≠ MTFDivergence.none)) mtfData then
    EntryType.reversal
  else if Option.any (fun (f : SignalComponent) => decide (f.strength > 70)) fundingSignal then
    EntryType.reversal
  else if Option.any (fun (vol : SignalComponent) => decide (vol.strength > 60)) volumeSignal &&
      Option.any (fun (vel : SignalComponent) => decide (vel.strength < 40)) velocitySignal then
    EntryType.early
  else if Option.any (fun (vel : SignalComponent) => decide (vel.strength > 70)) velocitySignal &&
      Option.any (fun (m : SignalComponent) => decide (m.strength > 60)) mtfSignal then
    EntryType.breakout
  else EntryType.momentum

/-- `SmartSignalEngine.calculateRiskLevel` (volume.ts lines 836-842). -/
def calculateRiskLevel (confluenceScore : ℚ) (signals : List SignalComponent) :
    RiskLevel :=
  let alignedCount := (signals.filter (fun s => decide (s.strength > 50))).length
  if confluenceScore > 70 ∧ alignedCount ≥ 4 then RiskLevel.low
  else if confluenceScore > 50 ∧ alignedCount ≥ 3 then RiskLevel.medium
  else RiskLevel.high

/-- Reasoning strings pushed while assembling the component list in
`analyzeSymbol`; the interpolated numbers of the source templates are
elided. -/
def reasoningFor (priceSignal volumeSignal velocitySignal fundingSignal oiSignal
    mtfSignal : Option SignalComponent) : List String :=
  (match priceSignal with
   | some s => if s.strength > 50 then ["Price moved in 24h"] else []
   | Option.none => []) ++
  (match volumeSignal with
   | some s => if s.strength > 60 then ["Volume spike detected"] else []
   | Option.none => []) ++
  (match velocitySignal with
   | some s => if s.strength > 50 then ["Strong momentum"] else []
   | Option.none => []) ++
  (match fundingSignal with
   | some s => if s.strength > 60 then ["Funding pressure"] else []
   | Option.none => []) ++
  (match oiSignal with
   | some s => if s.strength > 50 then ["Open interest move"] else []
   | Option.none => []) ++
  (match mtfSignal with
   | some s => if s.strength > 60 then ["Alignment across timeframes"] else []
   | Option.none => [])

/-- `SmartSignalEngine.analyzeSymbol` (volume.ts lines 512-597),
parameterised by the per-symbol `DetectorView` the engine reads. -/
def analyzeSymbol (now : ℤ) (symbol : String) (view : DetectorView) :
    Option SmartSignal :=
  match view.ticker with
  | Option.none => Option.none
  | some ticker =>
    let priceSignal := analyzePriceMovement view.ticker
    let volumeSignal := analyzeVolume view.volumeSpike view.ticker
    let velocitySignal := analyzeVelocity view.velocityAlert
    let fundingSignal := analyzeFunding view.fundingAlert
    let oiSignal := analyzeOpenInterest view.oiAlert view.ticker
    let mtfSignal := analyzeMTF view.mtfAlert
    let signals :=
      [priceSignal, volumeSignal, velocitySignal, fundingSignal, oiSignal,
        mtfSignal].filterMap id
    let reasoning :=
      reasoningFor priceSignal volumeSignal velocitySignal fundingSignal oiSignal mtfSignal
    if signals.length = 0 then Option.none
    else
      let r := calculateConfluence signals
      some { symbol := symbol
           , direction := r.direction
           , confidence := r.confidence
           , confluenceScore := r.confluenceScore
           , signals := signals
           , reasoning := reasoning
           , entryType := determineEntryType signals view.mtfAlert
           , riskLevel := calculateRiskLevel r.confluenceScore signals
           , price := ticker.lastPrice
           , timestamp := now }

/-- Singleton component list used to instantiate the C4 invariants. -/
def demoSignals : List SignalComponent :=
  [ { name := "Volume", direction := CompDir.bullish, strength := 70, weight := 15 } ]

/-- Stable insertion into a descending-sorted list: the new element goes in
front of the first element whose key does not exceed its own.  Together with
`sortDesc` this models the stable `Array.prototype.sort` under a comparator
`(a, b) => key(b) - key(a)` (stable-sort results are unique, so any stable
implementation is extensionally the JS one). -/
def insertDesc {α : Type} (key : α → ℚ) (a : α) : List α → List α
  | [] => [a]
  | b :: l => if key b ≤ key a then a :: b :: l else b :: insertDesc key a l

/-- Stable descending sort by a rational key (see `insertDesc`). -/
def sortDesc {α : Type} (key : α → ℚ) : List α → List α
  | [] => []
  | a :: l => insertDesc key a (sortDesc key l)

/-- Mutable accumulator of `detectReversal`: the chosen reversal type, the
additive confidence, and the trigger strings. -/
structure ReversalAcc where
  reversalType : Option ReversalType
  confidence : ℚ
  triggers : List String
deriving DecidableEq, Repr

/-- A `detectReversal` trigger that fires: pushes its message, adds its
confidence increment, and sets the reversal type only if none is set yet. -/
def revTrigger (acc : ReversalAcc) (t : ReversalType) (add : ℚ) (msg : String) :
    ReversalAcc :=
  { reversalType := if acc.reversalType.isNone then some t else acc.reversalType
  , confidence := acc.confidence + add
  , triggers := acc.triggers ++ [msg] }

/-- `SmartSignalEngine.detectReversal` (volume.ts lines 844-947),
parameterised by the per-symbol `DetectorView`.  Trigger messages keep the
source templates without the interpolated numbers. -/
def detectReversal (symbol : String) (view : DetectorView) : Option ReversalSignal :=
  match view.ticker with
  | Option.none => Option.none
  | some ticker =>
    let a0 : ReversalAcc := { reversalType := Option.none, confidence := 0, triggers := [] }
    let a1 :=
      match view.mtfAlert with
      | Option.none => a0
      | some m =>
        let a :=
          if m.divergence = MTFDivergence.bullishDiv then
            { reversalType := some ReversalType.bullishReversal
            , confidence := a0.confidence + 25
            , triggers := a0.triggers ++ ["RSI bullish divergence detected"] }
          else if m.divergence = MTFDivergence.bearishDiv then
            { reversalType := some ReversalType.bearishReversal
            , confidence := a0.confidence + 25
            , triggers := a0.triggers ++ ["RSI bearish divergence detected"] }
          else a0
        if m.rsi1h < 25 then revTrigger a ReversalType.bullishReversal 20 "RSI oversold"
        else if m.rsi1h > 75 then revTrigger a ReversalType.bearishReversal 20 "RSI overbought"
        else a
    let a2 :=
      match view.fundingAlert with
      | Option.none => a1
      | some fa =>
        if fa.fundingRate > 0.1 then
          revTrigger a1 ReversalType.bearishReversal 20 "Extreme positive funding"
        else if fa.fundingRate < -0.05 then
          revTrigger a1 ReversalType.bullishReversal 20 "Extreme negative funding"
        else a1
    let a3 :=
      match view.oiAlert with
      | Option.none => a2
      | some oiData =>
        if ticker.priceChangePercent > 5 ∧ oiData.oiChange < -3 then
          revTrigger a2 ReversalType.bearishReversal 15
            "OI divergence: price up but positions closing"
        else if ticker.priceChangePercent < -5 ∧ oiData.oiChange < -3 then
          revTrigger a2 ReversalType.bullishReversal 15 "OI divergence: shorts covering"
        else a2
    let a4 :=
      match view.volumeSpike with
      | Option.none => a3
      | some v =>
        if v.multiplier > 4 then
          if ticker.priceChangePercent > 15 then
            revTrigger a3 ReversalType.bearishReversal 15
              "Volume climax at price high - potential exhaustion"
          else if ticker.priceChangePercent < -15 then
            revTrigger a3 ReversalType.bullishReversal 15
              "Volume climax at price low - potential capitulation"
          else a3
        else a3
    match a4.reversalType with
    | Option.none => Option.none
    | some rt =>
      if a4.triggers.length = 0 then Option.none
      else
        let range := ticker.highPrice - ticker.lowPrice
        some { symbol := symbol
             , type := rt
             , confidence := min 100 a4.confidence
             , triggers := a4.triggers
             , price := ticker.lastPrice
             , potentialTarget :=
                 if rt = ReversalType.bullishReversal then ticker.lastPrice + range * 0.5
                 else ticker.lastPrice - range * 0.5
             , stopLoss :=
                 if rt = ReversalType.bullishReversal then ticker.lastPrice - range * 0.2
                 else ticker.lastPrice + range * 0.2 }

/-- JS `Map.set` on an insertion-ordered association list: replace in place
when the key is present, else append. -/
def mapSet {α : Type} (m : List (String × α)) (k : String) (v : α) :
    List (String × α) :=
  if m.any (fun p => decide (p.1 = k)) then
    m.map (fun p => if p.1 = k then (k, v) else p)
  else m ++ [(k, v)]

/-- JS `Map.get`. -/
def mapLookup {α : Type} (m : List (String × α)) (k : String) : Option α :=
  (m.find? (fun p => decide (p.1 = k))).map (fun p => p.2)

/-- The two signal maps owned by `SmartSignalEngine`. -/
structure EngineState where
  smartSignals : List (String × SmartSignal)
  reversalSignals : List (String × ReversalSignal)
deriving DecidableEq, Repr

/-- First half of the per-symbol loop body of `SmartSignalEngine.analyze`
(volume.ts lines 499-503): store the new smart signal only at
confidence ≥ 40. -/
def analyzeStepSignal (now : ℤ) (st : EngineState) (item : String × DetectorView) :
    EngineState :=
  match analyzeSymbol now item.1 item.2 with
  | some s =>
    if s.confidence ≥ 40 then { st with smartSignals := mapSet st.smartSignals item.1 s }
    else st
  | Option.none => st

/-- Second half of the loop body (volume.ts lines 505-508): store the new
reversal only at confidence ≥ 30. -/
def analyzeStepReversal (st : EngineState) (item : String × DetectorView) :
    EngineState :=
  match detectReversal item.1 item.2 with
  | some r =>
    if r.confidence ≥ 30 then { st with reversalSignals := mapSet st.reversalSignals item.1 r }
    else st
  | Option.none => st

/-- Body of the per-symbol loop of `SmartSignalEngine.analyze` (volume.ts
lines 495-510). -/
def analyzeStep (now : ℤ) (st : EngineState) (item : String × DetectorView) :
    EngineState :=
  analyzeStepReversal (analyzeStepSignal now st item) item

/-- `SmartSignalEngine.analyze`: one pass over the store's symbols, each
paired with the detector views the engine reads for it. -/
def analyze (now : ℤ) (views : List (String × DetectorView)) (st : EngineState) :
    EngineState :=
  views.foldl (analyzeStep now) st

/-- `SmartSignalEngine.getSignal`. -/
def getSignal (st : EngineState) (symbol : String) : Option SmartSignal :=
  mapLookup st.smartSignals symbol

/-- `SmartSignalEngine.getTopSignals` (volume.ts lines 950-960). -/
def getTopSignals (st : EngineState) (limit : ℕ) (direction : Option TradeDir) :
    List SmartSignal :=
  let signals := st.smartSignals.map (fun p => p.2)
  let signals :=
    match direction with
    | some d => signals.filter (fun s => decide (s.direction = d))
    | Option.none => signals
  (sortDesc (fun s => s.confidence) signals).take limit

/-- `SmartSignalEngine.getEarlyEntries`. -/
def getEarlyEntries (st : EngineState) (limit : ℕ) : List SmartSignal :=
  (sortDesc (fun s => s.confidence)
    ((st.smartSignals.map (fun p => p.2)).filter
      (fun s => decide (s.entryType = EntryType.early)))).take limit

/-- `SmartSignalEngine.getReversalSignals`. -/
def getReversalSignals (st : EngineState) (limit : ℕ) : List ReversalSignal :=
  (sortDesc (fun r => r.confidence) (st.reversalSignals.map (fun p => p.2))).take limit

/-- `SmartSignalEngine.getBreakoutCandidates`. -/
def getBreakoutCandidates (st : EngineState) (limit : ℕ) : List SmartSignal :=
  (sortDesc (fun s => s.confidence)
    ((st.smartSignals.map (fun p => p.2)).filter
      (fun s => decide (s.entryType = EntryType.breakout)))).take limit

/-- `SmartSignalEngine.getLowRiskSetups`. -/
def getLowRiskSetups (st : EngineState) (limit : ℕ) : List SmartSignal :=
  (sortDesc (fun s => s.confidence)
    ((st.smartSignals.map (fun p => p.2)).filter
      (fun s => decide (s.riskLevel = RiskLevel.low ∨ s.riskLevel = RiskLevel.medium)))).take limit

/-- Concrete low-confluence inputs for the C10 witness. -/
def ticker0 : TickerData :=
  { symbol := "AAAUSDT", lastPrice := 100, priceChange := 0, priceChangePercent := 0
  , openPrice := 100, highPrice := 101, lowPrice := 99, volume := 1000
  , quoteVolume := 100000, trades := 10, eventTime := 0 }

def view0 : DetectorView :=
  { ticker := some ticker0, volumeSpike := Option.none, velocityAlert := Option.none
  , fundingAlert := Option.none, oiAlert := Option.none, mtfAlert := Option.none }

/-- Direction of a recorded signal (winRate.ts: LONG | SHORT). -/
inductive TradeSide
  | long
  | short
deriving DecidableEq, Repr

/-- Outcome of a `SignalRecord`. -/
inductive Outcome
  | pending
  | win
  | loss
deriving DecidableEq, Repr

/-- `SignalRecord` owned by `WinRateTracker` (winRate.ts). -/
structure SignalRecord where
  id : String
  symbol : String
  entryType : String
  direction : TradeSide
  entryPrice : ℚ
  confidence : ℚ
  timestamp : ℤ
  outcome : Outcome
  exitPrice : Option ℚ
  pnlPercent : Option ℚ
deriving DecidableEq, Repr

/-- The tracker's pending map (in iteration order) and completed list. -/
structure TrackerState where
  signals : List SignalRecord
  completedSignals : List SignalRecord
deriving DecidableEq, Repr

/-- `evaluationTimeMs = 15 * 60 * 1000` (winRate.ts). -/
def evaluationTimeMs : ℤ := 15 * 60 * 1000

/-- `maxStoredSignals = 500` (winRate.ts). -/
def maxStoredSignals : ℕ := 500

/-- The pnl computation of `evaluatePendingSignals`: LONG gains with price,
SHORT with its fall. -/
def pnlPercentOf (direction : TradeSide) (entryPrice currentPrice : ℚ) : ℚ :=
  match direction with
  | TradeSide.long => (currentPrice - entryPrice) / entryPrice * 100
  | TradeSide.short => (entryPrice - currentPrice) / entryPrice * 100

/-- The outcome rule of `evaluatePendingSignals`. -/
def outcomeOf (pnl : ℚ) : Outcome :=
  if pnl > 0.5 then Outcome.win
  else if pnl < -0.5 then Outcome.loss
  else if pnl ≥ 0 then Outcome.win
  else Outcome.loss

/-- Body of the `WinRateTracker.evaluatePendingSignals` loop (winRate.ts
lines 81-123) for one entry of the pending map: records that are not
pending, not yet eligible, or whose symbol is absent from the `DataStore`
stay pending; eligible ones are completed. -/
def evalStep (now : ℤ) (getPrice : String → Option ℚ) (acc : TrackerState)
    (signal : SignalRecord) : TrackerState :=
  if signal.outcome ≠ Outcome.pending then
    { acc with signals := acc.signals ++ [signal] }
  else if now - signal.timestamp < evaluationTimeMs then
    { acc with signals := acc.signals ++ [signal] }
  else
    match getPrice signal.symbol with
    | Option.none => { acc with signals := acc.signals ++ [signal] }
    | some currentPrice =>
      let pnl := pnlPercentOf signal.direction signal.entryPrice currentPrice
      let r2 := { signal with
        outcome := outcomeOf pnl,
        exitPrice := some currentPrice,
        pnlPercent := some pnl }
      let completed := acc.completedSignals ++ [r2]
      let completed :=
        if completed.length > maxStoredSignals then
          completed.drop (completed.length - maxStoredSignals)
        else completed
      { signals := acc.signals, completedSignals := completed }

/-- `WinRateTracker.evaluatePendingSignals`, with the `DataStore` read
`getSymbol(...).current.lastPrice` abstracted as `getPrice`. -/
def evaluatePendingSignals (now : ℤ) (getPrice : String → Option ℚ)
    (st : TrackerState) : TrackerState :=
  st.signals.foldl (evalStep now getPrice)
    { signals := [], completedSignals := st.completedSignals }

/-- The LONG record of the spec's outcome scenario (§8 scenario 5). -/
def demoRecord : SignalRecord :=
  { id := "sig1", symbol := "CCCUSDT", entryType := "MOMENTUM"
  , direction := TradeSide.long, entryPrice := 100, confidence := 70
  , timestamp := 0, outcome := Outcome.pending
  , exitPrice := Option.none, pnlPercent := Option.none }

/-- Store view for the outcome scenario: "CCCUSDT" trades at 102. -/
def demoGetPrice : String → Option ℚ :=
  fun sym => if sym = "CCCUSDT" then some 102 else Option.none

/-- A point of `priceHistory` (binance/types.ts `PricePoint`). -/
structure PricePoint where
  price : ℚ
  timestamp : ℤ
deriving DecidableEq, Repr

/-- A point of `volumeHistory`. -/
structure VolumePoint where
  volume : ℚ
  timestamp : ℤ
deriving DecidableEq, Repr

/-- `SymbolData` owned by the `DataStore`. -/
structure SymbolData where
  symbol : String
  current : TickerData
  priceHistory : List PricePoint
  volumeHistory : List VolumePoint
  firstSeen : ℤ
  isNew : Bool
deriving DecidableEq, Repr

/-- `config.volatility.minChange24h` (default 10). -/
def minChange24h : ℚ := 10

/-- `config.volatility.criticalChange24h` (default 25). -/
def criticalChange24h : ℚ := 25

/-- The alert list built by the `VolatilityDetector.detect` loop, before the
final sort (volatility.ts lines 8-27). -/
def volatilityAlertsUnsorted (now : ℤ) (symbols : List SymbolData) :
    List VolatilityAlert :=
  symbols.filterMap (fun sd =>
    let change := sd.current.priceChangePercent
    if |change| ≥ minChange24h then
      some { symbol := sd.symbol
           , change24h := change
           , direction := if change > 0 then TradeDir.long else TradeDir.short
           , isCritical := decide (|change| ≥ criticalChange24h)
           , lastPrice := sd.current.lastPrice
           , timestamp := now }
    else Option.none)

/-- `VolatilityDetector.detect` (volatility.ts lines 8-32): the eligible
alerts sorted by the stable JS sort on descending `|change24h|`. -/
def volatilityDetect (now : ℤ) (symbols : List SymbolData) :
    List VolatilityAlert :=
  sortDesc (fun a => |a.change24h|) (volatilityAlertsUnsorted now symbols)

/-- Ticker literal used by the C5 counterexample. -/
def tickerOf (symbol : String) (changePercent : ℚ) : TickerData :=
  { symbol := symbol, lastPrice := 100, priceChange := changePercent
  , priceChangePercent := changePercent, openPrice := 100, highPrice := 115
  , lowPrice := 85, volume := 1000, quoteVolume := 5000000, trades := 10
  , eventTime := 0 }

/-- Store entry literal used by the C5 counterexample. -/
def symbolDataOf (symbol : String) (changePercent : ℚ) : SymbolData :=
  { symbol := symbol, current := tickerOf symbol changePercent
  , priceHistory := [], volumeHistory := [], firstSeen := 0, isNew := false }

/-- `config.volume.spikeMultiplier` (default 3). -/
def spikeMultiplier : ℚ := 3

/-- JS `arr.slice(-n)`. -/
def jsSliceLast {α : Type} (l : List α) (n : ℕ) : List α :=
  l.drop (l.length - n)

/-- JS `arr.slice(-a, -b)`. -/
def jsSlice {α : Type} (l : List α) (a b : ℕ) : List α :=
  (l.drop (l.length - a)).take ((l.length - b) - (l.length - a))

/-- Body of the `VolumeDetector.detect` loop for one symbol (volume.ts
lines 36-82): recent window of 10 snapshots against the older 20, rates from
the cumulative-volume deltas, `< $1M` total-volume cut and the ≥ 3×
multiplier gate. -/
def volumeDetectSymbol (snapshots : List VolumePoint) (sd : SymbolData)
    (now : ℤ) : Option VolumeAlert :=
  if snapshots.length < 30 then Option.none
  else
    let recentSnapshots := jsSliceLast snapshots 10
    let olderSnapshots := jsSlice snapshots 30 10
    if olderSnapshots.length < 10 then Option.none
    else
      let recentDelta :=
        (recentSnapshots.getLastD { volume := 0, timestamp := 0 }).volume -
          (recentSnapshots.headD { volume := 0, timestamp := 0 }).volume
      let avgDelta :=
        (olderSnapshots.getLastD { volume := 0, timestamp := 0 }).volume -
          (olderSnapshots.headD { volume := 0, timestamp := 0 }).volume
      let recentRate := recentDelta / 10
      let avgRate := avgDelta / (olderSnapshots.length : ℚ)
      if avgRate ≤ 0 then Option.none
      else
        let multiplier := recentRate / avgRate
        let totalVolume := sd.current.quoteVolume
        if totalVolume < 1000000 then Option.none
        else if multiplier ≥ spikeMultiplier then
          some { symbol := sd.symbol
               , currentVolume := totalVolume
               , averageVolume := avgRate * 60
               , multiplier := multiplier
               , priceChange := sd.current.priceChangePercent
               , timestamp := now }
        else Option.none

/-- `VolumeDetector.detect`: per-symbol loop then sort by descending
multiplier. -/
def volumeDetect (now : ℤ) (pairs : List (SymbolData × List VolumePoint)) :
    List VolumeAlert :=
  sortDesc (fun a => a.multiplier)
    (pairs.filterMap (fun pr => volumeDetectSymbol pr.2 pr.1 now))

/-- 30 cumulative-volume snapshots: +100 per step for 20 steps, then +600
per step for 10 — a clear volume spike (multiplier 108/19 ≈ 5.7). -/
def spikeSnapshots : List VolumePoint :=
  [ { volume := 0, timestamp := 0 }
  , { volume := 100, timestamp := 1 }
  , { volume := 200, timestamp := 2 }
  , { volume := 300, timestamp := 3 }
  , { volume := 400, timestamp := 4 }
  , { volume := 500, timestamp := 5 }
  , { volume := 600, timestamp := 6 }
  , { volume := 700, timestamp := 7 }
  , { volume := 800, timestamp := 8 }
  , { volume := 900, timestamp := 9 }
  , { volume := 1000, timestamp := 10 }
  , { volume := 1100, timestamp := 11 }
  , { volume := 1200, timestamp := 12 }
  , { volume := 1300, timestamp := 13 }
  , { volume := 1400, timestamp := 14 }
  , { volume := 1500, timestamp := 15 }
  , { volume := 1600, timestamp := 16 }
  , { volume := 1700, timestamp := 17 }
  , { volume := 1800, timestamp := 18 }
  , { volume := 1900, timestamp := 19 }
  , { volume := 2500, timestamp := 20 }
  , { volume := 3100, timestamp := 21 }
  , { volume := 3700, timestamp := 22 }
  , { volume := 4300, timestamp := 23 }
  , { volume := 4900, timestamp := 24 }
  , { volume := 5500, timestamp := 25 }
  , { volume := 6100, timestamp := 26 }
  , { volume := 6700, timestamp := 27 }
  , { volume := 7300, timestamp := 28 }
  , { volume := 7900, timestamp := 29 } ]

/-- Store entry whose 24h quote volume is exactly the $1M minimum. -/
def volumeEdgeSymbol : SymbolData :=
  { symbol := "EDGUSDT"
  , current := { tickerOf "EDGUSDT" 5 with quoteVolume := 1000000 }
  , priceHistory := [], volumeHistory := [], firstSeen := 0, isNew := false }

/-- Store entry whose 24h quote volume sits below the $1M minimum. -/
def volumeLowSymbol : SymbolData :=
  { symbolDataOf "LOWUSDT" 5 with
    current := { tickerOf "LOWUSDT" 5 with quoteVolume := 500 } }

/-- `config.velocity.windowMinutes * 60 * 1000` (default 5 min). -/
def velocityWindowMs : ℤ := 5 * 60 * 1000

/-- `config.volume.avgWindowMinutes * 60 * 1000` (default 60 min). -/
def volumeWindowMs : ℤ := 60 * 60 * 1000

/-- The `DataStore`'s fields. -/
structure DataStoreState where
  symbols : List (String × SymbolData)
  knownSymbols : List String
  initialized : Bool
deriving DecidableEq, Repr

/-- `DataStore.updateSymbol` (dataStore.ts lines 52-72): replace `current`,
append to both histories, trim both windows, age out `isNew`.  Note the
replacement of `current` is unconditional — `eventTime` is never
inspected. -/
def updateSymbol (data : SymbolData) (ticker : TickerData) (now : ℤ) : SymbolData :=
  let priceHistory := data.priceHistory ++ [{ price := ticker.lastPrice, timestamp := now }]
  let volumeHistory := data.volumeHistory ++ [{ volume := ticker.quoteVolume, timestamp := now }]
  let priceHistory := priceHistory.filter (fun p => decide (now - velocityWindowMs < p.timestamp))
  let volumeHistory := volumeHistory.filter (fun p => decide (now - volumeWindowMs < p.timestamp))
  let isNew := if data.isNew ∧ now - data.firstSeen > 60 * 60 * 1000 then false else data.isNew
  { data with
    current := ticker,
    priceHistory := priceHistory,
    volumeHistory := volumeHistory,
    isNew := isNew }

/-- `DataStore.update` (dataStore.ts lines 14-50). -/
def update (now : ℤ) (tickers : List TickerData) (st : DataStoreState) :
    DataStoreState × List String :=
  let res := tickers.foldl (fun (p : DataStoreState × List String) ticker =>
    match mapLookup p.1.symbols ticker.symbol with
    | some existing =>
      ({ p.1 with symbols := mapSet p.1.symbols ticker.symbol (updateSymbol existing ticker now) }, p.2)
    | Option.none =>
      let isNew := p.1.initialized &&
        !(p.1.knownSymbols.any (fun k => decide (k = ticker.symbol)))
      let newListings := if isNew then p.2 ++ [ticker.symbol] else p.2
      ({ p.1 with
          symbols := mapSet p.1.symbols ticker.symbol
            { symbol := ticker.symbol, current := ticker
            , priceHistory := [{ price := ticker.lastPrice, timestamp := now }]
            , volumeHistory := [{ volume := ticker.quoteVolume, timestamp := now }]
            , firstSeen := now, isNew := isNew }
        , knownSymbols := p.1.knownSymbols ++ [ticker.symbol] }, newListings)) (st, [])
  (if res.1.initialized then res.1 else { res.1 with initialized := true }, res.2)

/-- Store state with "BTCUSDT" current at eventTime 1000. -/
def btcTicker1 : TickerData := { tickerOf "BTCUSDT" 5 with eventTime := 1000 }

/-- A later-arriving but older ticker (eventTime 500). -/
def btcTicker0 : TickerData :=
  { tickerOf "BTCUSDT" 5 with eventTime := 500, lastPrice := 99 }

def btcStored : SymbolData :=
  { symbol := "BTCUSDT", current := btcTicker1, priceHistory := []
  , volumeHistory := [], firstSeen := 0, isNew := false }

def store1 : DataStoreState :=
  { symbols := [("BTCUSDT", btcStored)]
  , knownSymbols := ["BTCUSDT"], initialized := true }

/-- The `types` block of `NotificationConfig` (funding.ts).  Property names
are the camelCase keys of the source object. -/
structure NotificationTypes where
  smartSignals : Bool
  volumeSpikes : Bool
  liquidations : Bool
  whaleAlerts : Bool
  patterns : Bool
  reversals : Bool
deriving DecidableEq, Repr

/-- `NotificationConfig` (funding.ts). -/
structure NotificationConfig where
  enabled : Bool
  soundEnabled : Bool
  minConfidence : ℚ
  types : NotificationTypes
deriving DecidableEq, Repr

/-- The manager's default config. -/
def defaultNotificationConfig : NotificationConfig :=
  { enabled := true, soundEnabled := true, minConfidence := 60
  , types := { smartSignals := true, volumeSpikes := true, liquidations := true
             , whaleAlerts := true, patterns := true, reversals := true } }

/-- Notification priority. -/
inductive Priority
  | low
  | medium
  | high
  | critical
deriving DecidableEq, Repr

/-- `PendingNotification` (funding.ts). -/
structure PendingNotification where
  id : String
  type : String
  title : String
  message : String
  symbol : String
  direction : Option TradeSide
  confidence : Option ℚ
  timestamp : ℤ
  priority : Priority
deriving DecidableEq, Repr

/-- The manager's mutable state: bounded pending queue and sent-id set. -/
structure NotifState where
  pendingNotifications : List PendingNotification
  sentNotifications : List String
deriving DecidableEq, Repr

/-- `cooldownMs = 60000` (funding.ts). -/
def cooldownMs : ℤ := 60000

/-- `maxPending = 50` (funding.ts). -/
def maxPending : ℕ := 50

/-- `NotificationManager.generateId`: the id embeds the minute bucket
`Math.floor(now / cooldownMs)`. -/
def generateId (type symbol : String) (now : ℤ) : String :=
  type ++ "-" ++ symbol ++ "-" ++ toString (Int.fdiv now cooldownMs)

/-- JS `type.toLowerCase().replace(/_/g, '')`, at the character level. -/
def stripUnderscoreLower (ty : String) : String :=
  String.mk ((ty.data.map Char.toLower).filter (fun c => decide (c ≠ '_')))

/-- JS property read `config.types[typeKey]`: the camelCase keys resolve,
any other key reads `undefined`. -/
def typesLookup (t : NotificationTypes) (k : String) : Option Bool :=
  if k = "smartSignals" then some t.smartSignals
  else if k = "volumeSpikes" then some t.volumeSpikes
  else if k = "liquidations" then some t.liquidations
  else if k = "whaleAlerts" then some t.whaleAlerts
  else if k = "patterns" then some t.patterns
  else if k = "reversals" then some t.reversals
  else Option.none

/-- `NotificationManager.shouldNotify` (funding.ts lines 188-203). -/
def shouldNotify (cfg : NotificationConfig) (st : NotifState) (now : ℤ)
    (type symbol : String) (confidence : Option ℚ) : Bool :=
  if cfg.enabled = false then false
  else
    let typeKey := stripUnderscoreLower type
    if typesLookup cfg.types typeKey = some false then false
    else if (match confidence with
             | some c => decide (c < cfg.minConfidence)
             | Option.none => false) then false
    else
      let id := generateId type symbol now
      if st.sentNotifications.any (fun sid => decide (sid = id)) then false
      else true

/-- JS string comparison `<` (lexicographic on code units). -/
def charListLtB : List Char → List Char → Bool
  | [], [] => false
  | [], _ :: _ => true
  | _ :: _, [] => false
  | a :: as, b :: bs =>
    if a.toNat < b.toNat then true
    else if b.toNat < a.toNat then false
    else charListLtB as bs

/-- JS `a < b` on strings. -/
def jsStringLt (a b : String) : Bool := charListLtB a.data b.data

/-- JS `s.split('-')`, at the character level. -/
def splitOnDash (l : List Char) : List (List Char) :=
  match l with
  | [] => [[]]
  | x :: xs =>
    let r := splitOnDash xs
    if x = '-' then [] :: r
    else (x :: r.headD []) :: r.tail

/-- JS `sentId.split('-').pop()!`. -/
def lastSegment (sid : String) : String :=
  String.mk ((splitOnDash sid.data).getLastD [])

/-- `NotificationManager.addNotification` (funding.ts lines 304-329): mark
the id sent, enqueue, trim the queue to 50, and clean up sent ids whose
bucket segment compares below the cutoff string. -/
def addNotification (st : NotifState) (now : ℤ) (type title message symbol : String)
    (direction : Option TradeSide) (confidence : Option ℚ) (priority : Priority) :
    NotifState :=
  let id := generateId type symbol now
  let sent := st.sentNotifications ++ [id]
  let pending := st.pendingNotifications ++
    [{ id := id, type := type, title := title, message := message, symbol := symbol
     , direction := direction, confidence := confidence, timestamp := now
     , priority := priority }]
  let pending :=
    if pending.length > maxPending then pending.drop (pending.length - maxPending)
    else pending
  let cutoff := toString (Int.fdiv (now - cooldownMs * 2) cooldownMs)
  let sent := sent.filter (fun sid => !(jsStringLt (lastSegment sid) cutoff))
  { pendingNotifications := pending, sentNotifications := sent }

/-- `NotificationManager.addSmartSignal` (funding.ts lines 205-224): gates
on `shouldNotify` with key "smartSignals" but records under type
"SMART_SIGNAL".  Title/message interpolations elided. -/
def addSmartSignal (cfg : NotificationConfig) (st : NotifState) (now : ℤ)
    (symbol : String) (direction : TradeSide) (confidence : ℚ)
    (entryType : String) : NotifState :=
  if shouldNotify cfg st now "smartSignals" symbol (some confidence) = false then st
  else
    let priority :=
      if confidence ≥ 80 then Priority.critical
      else if confidence ≥ 70 then Priority.high
      else Priority.medium
    addNotification st now "SMART_SIGNAL" "Signal" (entryType ++ " entry detected")
      symbol (some direction) (some confidence) priority

/-- Empty manager state. -/
def notifState0 : NotifState :=
  { pendingNotifications := [], sentNotifications := [] }

/-- `config.velocity.minVelocity` (default 0.5 %/min). -/
def minVelocity : ℚ := 0.5

/-- `config.velocity.accelerationThreshold` (default 0.1). -/
def accelerationThreshold : ℚ := 0.1

/-- `VelocityDetector.calculateVelocity` (volatility.ts lines 106-122). -/
def calculateVelocity (priceHistory : List PricePoint) : ℚ :=
  if priceHistory.length < 2 then 0
  else
    let oldest := priceHistory.headD { price := 0, timestamp := 0 }
    let newest := priceHistory.getLastD { price := 0, timestamp := 0 }
    let priceChange := (newest.price - oldest.price) / oldest.price * 100
    let timeMinutes := ((newest.timestamp - oldest.timestamp : ℤ) : ℚ) / (1000 * 60)
    if timeMinutes ≤ 0 then 0
    else priceChange / timeMinutes

/-- Body of the `VelocityDetector.detect` loop for one symbol (volatility.ts
lines 63-98): the alert list so far and the previous-velocity cache.  Note
line 97 of the source mutates the cache on every call. -/
def velocityStep (now : ℤ) (acc : List VelocityAlert × List (String × ℚ))
    (sd : SymbolData) : List VelocityAlert × List (String × ℚ) :=
  if sd.priceHistory.length < 2 then acc
  else
    let velocity := calculateVelocity sd.priceHistory
    let alerts :=
      if |velocity| ≥ minVelocity then
        let previousVelocity := (mapLookup acc.2 sd.symbol).getD 0
        let acceleration := velocity - previousVelocity
        let trend :=
          if acceleration > accelerationThreshold then VelTrend.accelerating
          else if acceleration < -accelerationThreshold then VelTrend.decelerating
          else VelTrend.steady
        acc.1 ++ [{ symbol := sd.symbol, velocity := velocity
                  , acceleration := acceleration, trend := trend, timestamp := now }]
      else acc.1
    (alerts, mapSet acc.2 sd.symbol (calculateVelocity sd.priceHistory))

/-- `VelocityDetector.detect` (volatility.ts lines 59-104): returns the
sorted alerts and the detector's mutated previous-velocity cache. -/
def velocityDetect (now : ℤ) (symbols : List SymbolData)
    (prev : List (String × ℚ)) : List VelocityAlert × List (String × ℚ) :=
  let res := symbols.foldl (velocityStep now) ([], prev)
  (sortDesc (fun a => |a.velocity|) res.1, res.2)

/-- A symbol moving 1 %/min over its price history. -/
def velSymbol : SymbolData :=
  { symbolDataOf "VELUSDT" 5 with
    priceHistory := [ { price := 100, timestamp := 0 }
                    , { price := 101, timestamp := 60000 } ] }

/-- The alert `VelocityDetector.detect` emits for one symbol against a fixed
previous-velocity cache `m`. -/
def alertOf (now : ℤ) (m : List (String × ℚ)) (sd : SymbolData) :
    Option VelocityAlert :=
  if sd.priceHistory.length < 2 then Option.none
  else
    let velocity := calculateVelocity sd.priceHistory
    if |velocity| ≥ minVelocity then
      let previousVelocity := (mapLookup m sd.symbol).getD 0
      let acceleration := velocity - previousVelocity
      let trend :=
        if acceleration > accelerationThreshold then VelTrend.accelerating
        else if acceleration < -accelerationThreshold then VelTrend.decelerating
        else VelTrend.steady
      some { symbol := sd.symbol, velocity := velocity, acceleration := acceleration
           , trend := trend, timestamp := now }
    else Option.none

/-- C1 counterexample: on the spec's six fusion components the engine returns
confluence score 54.5, not the 53.5 the spec computes (the spec's sum drops
one unit: 12 + 10.5 + 11 + 5 + 16 = 54.5). -/
theorem fusion_confluence_not_spec_value :
    (calculateConfluence fusionSignals).confluenceScore = 54.5 ∧
    (calculateConfluence fusionSignals).confluenceScore ≠ 53.5 := by
  norm_num +decide [calculateConfluence, netScore, bullishScore, bearishScore, totalWeight,
    alignedSignals, weightedStrength, fusionSignals, List.filter_cons, abs_of_nonneg,
    min_def, max_def]

/-- C1 amended: for the six fusion components, total weight is 100, the net
bullish-minus-bearish weighted score is 54.5, 5 of the 6 components are
aligned, the confluence score is 54.5, the confidence is
`min 100 (54.5 + 5/6*20) = 427/6 ≈ 71.17` and the direction is LONG. -/
theorem fusion_scenario_values :
    totalWeight fusionSignals = 100 ∧
    netScore fusionSignals = 54.5 ∧
    alignedSignals fusionSignals = 5 ∧
    fusionSignals.length = 6 ∧
    (calculateConfluence fusionSignals).direction = TradeDir.long ∧
    (calculateConfluence fusionSignals).confluenceScore = 54.5 ∧
    (calculateConfluence fusionSignals).confidence = 427 / 6 := by
  norm_num +decide [calculateConfluence, netScore, bullishScore, bearishScore, totalWeight,
    alignedSignals, weightedStrength, fusionSignals, List.filter_cons, abs_of_nonneg,
    min_def, max_def]

/-- C2: the code's combined confidence agrees pointwise with the spec's blend
formula; with the default weights 0.6/0.4, win probability 0.8 and rule
confidence 70 it yields exactly 83.6; and whenever the two weights sum to 1,
win probability 0.5 with rule confidence 50 yields the plain weighted sum 50
(no boost, no penalty). -/
theorem combinedConfidence_spec :
    (∀ wMl wRule p rc,
        calculateCombinedConfidence wMl wRule p rc = combinedConfidenceSpec wMl wRule p rc) ∧
    calculateCombinedConfidence 0.6 0.4 0.8 70 = 83.6 ∧
    (∀ wMl wRule, wMl + wRule = 1 →
        calculateCombinedConfidence wMl wRule 0.5 50 = 50) := by
  refine ⟨fun wMl wRule p rc => rfl,
    by norm_num [calculateCombinedConfidence, abs_of_nonneg, min_def, max_def],
    fun wMl wRule h => ?_⟩
  have h50 : (50 : ℚ) * wMl + 50 * wRule = 50 := by nlinarith
  norm_num [calculateCombinedConfidence, min_def, max_def, h50]

/-- C2 witness: the quantified parts of `combinedConfidence_spec`
instantiated at concrete weights. -/
theorem combinedConfidence_spec_witness :
    calculateCombinedConfidence 0.6 0.4 0.5 50 = 50 :=
  combinedConfidence_spec.2.2 0.6 0.4 (by norm_num)

/-- Bounds on each contribution to the confluence scores. -/
theorem weightedStrength_nonneg (s : SignalComponent) (h0 : 0 ≤ s.strength)
    (hw : 0 ≤ s.weight) : 0 ≤ weightedStrength s := by
  unfold weightedStrength
  positivity

theorem weightedStrength_le_weight (s : SignalComponent) (h1 : s.strength ≤ 100)
    (hw : 0 ≤ s.weight) : weightedStrength s ≤ s.weight := by
  unfold weightedStrength
  nlinarith

/-- The bullish and bearish scores are nonnegative and together never exceed
the total weight, whenever every component has strength in [0,100] and
nonnegative weight. -/
theorem scores_bounded (signals : List SignalComponent)
    (h : ∀ s ∈ signals, 0 ≤ s.strength ∧ s.strength ≤ 100 ∧ 0 ≤ s.weight) :
    0 ≤ bullishScore signals ∧ 0 ≤ bearishScore signals ∧
      bullishScore signals + bearishScore signals ≤ totalWeight signals := by
  induction signals with
  | nil => simp [bullishScore, bearishScore, totalWeight]
  | cons a l ih =>
    obtain ⟨ha0, ha1, haw⟩ := h a (List.mem_cons_self a l)
    obtain ⟨ih0, ih1, ih2⟩ := ih (fun s hs => h s (List.mem_cons_of_mem a hs))
    have hws0 := weightedStrength_nonneg a ha0 haw
    have hws1 := weightedStrength_le_weight a ha1 haw
    rcases hd : a.direction with _ | _ | _ <;>
      simp +decide only [bullishScore, bearishScore, totalWeight, List.filter_cons,
        List.map_cons, List.sum_cons, hd, decide_eq_true_eq, if_true, if_false] at ih0 ih1 ih2 ⊢ <;>
      exact ⟨by nlinarith, by nlinarith, by nlinarith⟩

theorem totalWeight_nonneg (signals : List SignalComponent)
    (h : ∀ s ∈ signals, 0 ≤ s.weight) : 0 ≤ totalWeight signals := by
  induction signals with
  | nil => simp [totalWeight]
  | cons a l ih =>
    have h0 := h a (List.mem_cons_self a l)
    have h2 := ih (fun s hs => h s (List.mem_cons_of_mem a hs))
    simp only [totalWeight, List.map_cons, List.sum_cons] at *
    nlinarith

theorem totalWeight_pos (signals : List SignalComponent) (hne : signals ≠ [])
    (h : ∀ s ∈ signals, 0 < s.weight) : 0 < totalWeight signals := by
  cases signals with
  | nil => exact absurd rfl hne
  | cons a l =>
    have h0 : 0 < a.weight := h a (List.mem_cons_self a l)
    have hl : 0 ≤ totalWeight l :=
      totalWeight_nonneg l (fun s hs => le_of_lt (h s (List.mem_cons_of_mem a hs)))
    simp only [totalWeight, List.map_cons, List.sum_cons] at *
    nlinarith

/-- C4: for every non-empty component list with strengths in [0,100] and
positive weights, `calculateConfluence` keeps `confluenceScore` and
`confidence` inside [0,100] and leaves NEUTRAL only when the net weighted
score stays within ±10; and every `SmartSignal` produced by `analyzeSymbol`
carries a non-empty component list. -/
theorem confluence_invariants :
    (∀ signals : List SignalComponent, signals ≠ [] →
      (∀ s ∈ signals, 0 ≤ s.strength ∧ s.strength ≤ 100 ∧ 0 < s.weight) →
      0 ≤ (calculateConfluence signals).confluenceScore ∧
      (calculateConfluence signals).confluenceScore ≤ 100 ∧
      0 ≤ (calculateConfluence signals).confidence ∧
      (calculateConfluence signals).confidence ≤ 100 ∧
      ((calculateConfluence signals).direction ≠ TradeDir.neutral →
        10 < |netScore signals|)) ∧
    (∀ (now : ℤ) (symbol : String) (view : DetectorView) (s : SmartSignal),
      analyzeSymbol now symbol view = some s → s.signals ≠ []) := by
  constructor
  · intro signals hne hb
    obtain ⟨h1, h2, h3⟩ :=
      scores_bounded signals (fun s hs =>
        ⟨(hb s hs).1, (hb s hs).2.1, le_of_lt (hb s hs).2.2⟩)
    have htw := totalWeight_pos signals hne (fun s hs => (hb s hs).2.2)
    have hnet : |netScore signals| ≤ totalWeight signals := by
      rw [abs_le]
      unfold netScore
      constructor <;> linarith
    have hcs : (calculateConfluence signals).confluenceScore =
        |netScore signals| / totalWeight signals * 100 := rfl
    have hcf : (calculateConfluence signals).confidence =
        min 100 ((calculateConfluence signals).confluenceScore +
          ((alignedSignals signals : ℚ) / (signals.length : ℚ)) * 20) := rfl
    have hdir : (calculateConfluence signals).direction =
        (if netScore signals > 10 then TradeDir.long
         else if netScore signals < -10 then TradeDir.short
         else TradeDir.neutral) := rfl
    have hcs0 : 0 ≤ (calculateConfluence signals).confluenceScore := by
      rw [hcs]
      have := abs_nonneg (netScore signals)
      positivity
    have hcs100 : (calculateConfluence signals).confluenceScore ≤ 100 := by
      rw [hcs]
      have hq : |netScore signals| / totalWeight signals ≤ 1 :=
        (div_le_one htw).mpr hnet
      nlinarith
    have hbonus : 0 ≤ ((alignedSignals signals : ℚ) / (signals.length : ℚ)) * 20 := by
      positivity
    refine ⟨hcs0, hcs100, ?_, ?_, ?_⟩
    · rw [hcf]
      exact le_min (by norm_num) (by linarith)
    · rw [hcf]
      exact min_le_left _ _
    · intro hd
      rw [hdir] at hd
      by_cases hgt : netScore signals > 10
      · calc (10 : ℚ) < netScore signals := hgt
          _ ≤ |netScore signals| := le_abs_self _
      · by_cases hlt : netScore signals < -10
        · calc (10 : ℚ) < -netScore signals := by linarith
            _ ≤ |netScore signals| := neg_le_abs _
        · exact absurd (by simp [hgt, hlt]) hd
  · intro now symbol view s h
    unfold analyzeSymbol at h
    cases hv : view.ticker with
    | none => rw [hv] at h; exact Option.noConfusion h
    | some t =>
      rw [hv] at h
      simp only at h
      split at h
      · exact Option.noConfusion h
      · next hlen =>
        obtain rfl := (Option.some.inj h).symm
        intro hnil
        exact hlen (by simpa using congrArg List.length hnil)

theorem perm_insertDesc {α : Type} (key : α → ℚ) (a : α) (l : List α) :
    List.Perm (insertDesc key a l) (a :: l) := by
  induction l with
  | nil => simp [insertDesc]
  | cons b m ih =>
    unfold insertDesc
    split
    · exact List.Perm.refl _
    · exact (List.Perm.cons b ih).trans (List.Perm.swap a b m)

theorem sortDesc_perm {α : Type} (key : α → ℚ) (l : List α) :
    List.Perm (sortDesc key l) l := by
  induction l with
  | nil => simp [sortDesc]
  | cons a m ih =>
    exact (perm_insertDesc key a (sortDesc key m)).trans (List.Perm.cons a ih)

theorem mem_sortDesc {α : Type} (key : α → ℚ) (l : List α) (x : α) :
    x ∈ sortDesc key l ↔ x ∈ l :=
  (sortDesc_perm key l).mem_iff

theorem pairwise_insertDesc {α : Type} (key : α → ℚ) (a : α) (l : List α)
    (h : List.Pairwise (fun x y => key y ≤ key x) l) :
    List.Pairwise (fun x y => key y ≤ key x) (insertDesc key a l) := by
  induction l with
  | nil => simp [insertDesc]
  | cons b m ih =>
    unfold insertDesc
    rcases h with _ | ⟨hb, hm⟩
    split
    · next hba =>
      refine List.Pairwise.cons ?_ (List.Pairwise.cons hb hm)
      intro y hy
      rcases List.mem_cons.mp hy with rfl | hy
      · exact hba
      · exact le_trans (hb y hy) hba
    · next hba =>
      push_neg at hba
      refine List.Pairwise.cons ?_ (ih hm)
      intro y hy
      have hy2 : y ∈ a :: m := (perm_insertDesc key a m).mem_iff.mp hy
      rcases List.mem_cons.mp hy2 with rfl | h1
      · exact le_of_lt hba
      · exact hb y h1

theorem pairwise_sortDesc {α : Type} (key : α → ℚ) (l : List α) :
    List.Pairwise (fun x y => key y ≤ key x) (sortDesc key l) := by
  induction l with
  | nil => simp [sortDesc]
  | cons a m ih => exact pairwise_insertDesc key a (sortDesc key m) ih

/-- Stability of the sort, phrased per key-class: for every key value `c`,
the elements of key `c` appear in the sorted list exactly in their original
order. -/
theorem filter_insertDesc {α : Type} (key : α → ℚ) (a : α) (l : List α) (c : ℚ) :
    (insertDesc key a l).filter (fun y => decide (key y = c)) =
      if key a = c then a :: l.filter (fun y => decide (key y = c))
      else l.filter (fun y => decide (key y = c)) := by
  induction l with
  | nil => by_cases hac : key a = c <;> simp [insertDesc, List.filter_cons, hac]
  | cons b m ih =>
    unfold insertDesc
    by_cases hba : key b ≤ key a
    · simp only [if_pos hba]
      by_cases hac : key a = c <;> simp [List.filter_cons, hac]
    · simp only [if_neg hba]
      push_neg at hba
      by_cases hbc : key b = c
      · by_cases hac : key a = c
        · rw [hac, hbc] at hba
          exact absurd hba (lt_irrefl c)
        · simp [List.filter_cons, hbc, hac, ih]
      · simp [List.filter_cons, hbc, ih]

theorem sortDesc_filter_key {α : Type} (key : α → ℚ) (l : List α) (c : ℚ) :
    (sortDesc key l).filter (fun y => decide (key y = c)) =
      l.filter (fun y => decide (key y = c)) := by
  induction l with
  | nil => simp [sortDesc]
  | cons a m ih =>
    unfold sortDesc
    rw [filter_insertDesc]
    by_cases hac : key a = c <;> simp [List.filter_cons, hac, ih]

/-- `sortDesc` commutes with a key-preserving map. -/
theorem insertDesc_map {α β : Type} (key1 : α → ℚ) (key2 : β → ℚ) (g : α → β)
    (hkey : ∀ x, key2 (g x) = key1 x) (a : α) (l : List α) :
    insertDesc key2 (g a) (l.map g) = (insertDesc key1 a l).map g := by
  induction l with
  | nil => simp [insertDesc]
  | cons b m ih =>
    simp only [List.map_cons, insertDesc, hkey]
    by_cases hba : key1 b ≤ key1 a
    · rw [if_pos hba, if_pos hba, List.map_cons, List.map_cons]
    · rw [if_neg hba, if_neg hba, List.map_cons, ih]

theorem sortDesc_map {α β : Type} (key1 : α → ℚ) (key2 : β → ℚ) (g : α → β)
    (hkey : ∀ x, key2 (g x) = key1 x) (l : List α) :
    sortDesc key2 (l.map g) = (sortDesc key1 l).map g := by
  induction l with
  | nil => simp [sortDesc]
  | cons a m ih =>
    simp only [List.map_cons, sortDesc, ih]
    exact insertDesc_map key1 key2 g hkey a (sortDesc key1 m)

/-- C4 witness: the invariants instantiated on the singleton demo list, and
the non-empty components fact on a concrete analysis. -/
theorem confluence_invariants_witness :
    0 ≤ (calculateConfluence demoSignals).confluenceScore ∧
    (calculateConfluence demoSignals).confluenceScore ≤ 100 ∧
    0 ≤ (calculateConfluence demoSignals).confidence ∧
    (calculateConfluence demoSignals).confidence ≤ 100 ∧
    ((calculateConfluence demoSignals).direction ≠ TradeDir.neutral →
      10 < |netScore demoSignals|) :=
  confluence_invariants.1 demoSignals (by simp [demoSignals])
    (by intro s hs; simp [demoSignals] at hs; subst hs; norm_num)

theorem mem_mapSet {α : Type} (m : List (String × α)) (k : String) (v : α)
    (q : String × α) (hq : q ∈ mapSet m k v) : q = (k, v) ∨ q ∈ m := by
  unfold mapSet at hq
  split at hq
  · obtain ⟨p, hp, hpq⟩ := List.mem_map.mp hq
    by_cases hpk : p.1 = k
    · left
      rw [← hpq, if_pos hpk]
    · right
      rw [← hpq, if_neg hpk]
      exact hp
  · rcases List.mem_append.mp hq with h | h
    · right; exact h
    · left; simpa using h

theorem analyzeStepSignal_preserves (now : ℤ) (st : EngineState)
    (item : String × DetectorView)
    (h1 : ∀ p ∈ st.smartSignals, 40 ≤ p.2.confidence) :
    (∀ p ∈ (analyzeStepSignal now st item).smartSignals, 40 ≤ p.2.confidence) ∧
    (analyzeStepSignal now st item).reversalSignals = st.reversalSignals := by
  unfold analyzeStepSignal
  cases hsig : analyzeSymbol now item.1 item.2 with
  | none => exact ⟨h1, rfl⟩
  | some s =>
    by_cases hc : s.confidence ≥ 40
    · simp only [if_pos hc]
      refine ⟨?_, by trivial⟩
      intro p hp
      rcases mem_mapSet _ _ _ p hp with rfl | hmem
      · exact hc
      · exact h1 p hmem
    · simp only [if_neg hc]
      exact ⟨h1, by trivial⟩

theorem analyzeStepReversal_preserves (st : EngineState)
    (item : String × DetectorView)
    (h2 : ∀ p ∈ st.reversalSignals, 30 ≤ p.2.confidence) :
    (∀ p ∈ (analyzeStepReversal st item).reversalSignals, 30 ≤ p.2.confidence) ∧
    (analyzeStepReversal st item).smartSignals = st.smartSignals := by
  unfold analyzeStepReversal
  cases hrev : detectReversal item.1 item.2 with
  | none => exact ⟨h2, rfl⟩
  | some r =>
    by_cases hr : r.confidence ≥ 30
    · simp only [if_pos hr]
      refine ⟨?_, by trivial⟩
      intro p hp
      rcases mem_mapSet _ _ _ p hp with rfl | hmem
      · exact hr
      · exact h2 p hmem
    · simp only [if_neg hr]
      exact ⟨h2, by trivial⟩

theorem analyzeStep_preserves (now : ℤ) (st : EngineState)
    (item : String × DetectorView)
    (h1 : ∀ p ∈ st.smartSignals, 40 ≤ p.2.confidence)
    (h2 : ∀ p ∈ st.reversalSignals, 30 ≤ p.2.confidence) :
    (∀ p ∈ (analyzeStep now st item).smartSignals, 40 ≤ p.2.confidence) ∧
    (∀ p ∈ (analyzeStep now st item).reversalSignals, 30 ≤ p.2.confidence) := by
  obtain ⟨a1, a2⟩ := analyzeStepSignal_preserves now st item h1
  have h2b : ∀ p ∈ (analyzeStepSignal now st item).reversalSignals, 30 ≤ p.2.confidence := by
    rw [a2]; exact h2
  obtain ⟨b1, b2⟩ := analyzeStepReversal_preserves (analyzeStepSignal now st item) item h2b
  unfold analyzeStep
  constructor
  · rw [b2]; exact a1
  · exact b1

theorem analyze_preserves (now : ℤ) (views : List (String × DetectorView))
    (st : EngineState)
    (h1 : ∀ p ∈ st.smartSignals, 40 ≤ p.2.confidence)
    (h2 : ∀ p ∈ st.reversalSignals, 30 ≤ p.2.confidence) :
    (∀ p ∈ (analyze now views st).smartSignals, 40 ≤ p.2.confidence) ∧
    (∀ p ∈ (analyze now views st).reversalSignals, 30 ≤ p.2.confidence) := by
  induction views generalizing st with
  | nil => exact ⟨h1, h2⟩
  | cons v vs ih =>
    have hstep := analyzeStep_preserves now st v h1 h2
    exact ih (analyzeStep now st v) hstep.1 hstep.2

theorem analyzeSymbol_view0_low : ∀ s, analyzeSymbol 0 "AAAUSDT" view0 = some s →
    s.confidence < 40 := by
  intro s hs
  unfold analyzeSymbol at hs
  norm_num +decide [view0, ticker0, analyzePriceMovement, analyzeVolume, analyzeVelocity,
    analyzeFunding, analyzeOpenInterest, analyzeMTF] at hs
  subst hs
  norm_num +decide [calculateConfluence, netScore, bullishScore, bearishScore, totalWeight,
    alignedSignals, weightedStrength, List.filter_cons, List.filterMap_cons,
    List.filterMap_nil, id_eq, List.map_cons, List.map_nil, List.sum_cons, List.sum_nil,
    min_def, max_def, abs_of_nonneg]

theorem analyzeStepSignal_rev (now : ℤ) (st : EngineState)
    (item : String × DetectorView) :
    (analyzeStepSignal now st item).reversalSignals = st.reversalSignals := by
  unfold analyzeStepSignal
  cases analyzeSymbol now item.1 item.2 with
  | none => rfl
  | some s => by_cases hc : s.confidence ≥ 40 <;> simp [hc]

theorem analyzeStepReversal_smart (st : EngineState) (item : String × DetectorView) :
    (analyzeStepReversal st item).smartSignals = st.smartSignals := by
  unfold analyzeStepReversal
  cases detectReversal item.1 item.2 with
  | none => rfl
  | some r => by_cases hr : r.confidence ≥ 30 <;> simp [hr]

/-- C10: signals below the retention thresholds never enter the engine's
maps: after any `analyze` pass over any views, every stored smart signal has
confidence ≥ 40 and every stored reversal ≥ 30 (provided the maps already
satisfied this, as the empty initial maps do); a low-confidence analysis of a
symbol leaves the smart-signal map — and a low-confidence reversal the
reversal map — entirely unchanged; and the signals observable through
`getTopSignals` and `getSignal` inherit the confidence ≥ 40 bound. -/
theorem engine_retention :
    (∀ (now : ℤ) (views : List (String × DetectorView)) (st : EngineState),
      (∀ p ∈ st.smartSignals, 40 ≤ p.2.confidence) →
      (∀ p ∈ st.reversalSignals, 30 ≤ p.2.confidence) →
      (∀ p ∈ (analyze now views st).smartSignals, 40 ≤ p.2.confidence) ∧
      (∀ p ∈ (analyze now views st).reversalSignals, 30 ≤ p.2.confidence)) ∧
    (∀ (now : ℤ) (st : EngineState) (item : String × DetectorView),
      (∀ s, analyzeSymbol now item.1 item.2 = some s → s.confidence < 40) →
      (analyzeStep now st item).smartSignals = st.smartSignals) ∧
    (∀ (now : ℤ) (st : EngineState) (item : String × DetectorView),
      (∀ r, detectReversal item.1 item.2 = some r → r.confidence < 30) →
      (analyzeStep now st item).reversalSignals = st.reversalSignals) ∧
    (∀ (st : EngineState) (limit : ℕ) (dir : Option TradeDir),
      (∀ p ∈ st.smartSignals, 40 ≤ p.2.confidence) →
      ∀ s ∈ getTopSignals st limit dir, 40 ≤ s.confidence) ∧
    (∀ (st : EngineState) (sym : String) (s : SmartSignal),
      (∀ p ∈ st.smartSignals, 40 ≤ p.2.confidence) →
      getSignal st sym = some s → 40 ≤ s.confidence) := by
  refine ⟨?_, ?_, ?_, ?_, ?_⟩
  · exact fun now views st h1 h2 => analyze_preserves now views st h1 h2
  · intro now st item hlow
    have hsig : (analyzeStepSignal now st item).smartSignals = st.smartSignals := by
      unfold analyzeStepSignal
      cases hs : analyzeSymbol now item.1 item.2 with
      | none => rfl
      | some s =>
        have hlt := hlow s hs
        have hneg : ¬ s.confidence ≥ 40 := by linarith
        simp [hneg]
    unfold analyzeStep
    rw [analyzeStepReversal_smart, hsig]
  · intro now st item hlow
    have hrev : ∀ st2 : EngineState,
        (analyzeStepReversal st2 item).reversalSignals = st2.reversalSignals := by
      intro st2
      unfold analyzeStepReversal
      cases hr : detectReversal item.1 item.2 with
      | none => rfl
      | some r =>
        have hlt := hlow r hr
        have hneg : ¬ r.confidence ≥ 30 := by linarith
        simp [hneg]
    unfold analyzeStep
    rw [hrev, analyzeStepSignal_rev]
  · intro st limit dir h s hs
    unfold getTopSignals at hs
    have hs2 := List.take_subset limit _ hs
    rw [mem_sortDesc] at hs2
    have hv : s ∈ st.smartSignals.map (fun p => p.2) := by
      cases dir with
      | none => simpa using hs2
      | some d => exact List.mem_of_mem_filter hs2
    obtain ⟨p, hp, rfl⟩ := List.mem_map.mp hv
    exact h p hp
  · intro st sym s h hs
    unfold getSignal mapLookup at hs
    obtain ⟨p, hp, rfl⟩ := Option.map_eq_some'.mp hs
    exact h p (List.mem_of_find?_eq_some hp)

/-- C10 witness: a pass whose computed signal has confidence 0 (< 40) leaves
the engine's smart-signal map unchanged. -/
theorem engine_retention_witness :
    (analyzeStep 0 { smartSignals := [], reversalSignals := [] }
      ("AAAUSDT", view0)).smartSignals = [] := by
  have h := engine_retention.2.1 0
    { smartSignals := [], reversalSignals := [] } ("AAAUSDT", view0)
    (fun s hs => analyzeSymbol_view0_low s hs)
  simpa using h

/-- C3: a pending record stays untouched while younger than 15 minutes or
while its symbol is absent from the store; an eligible record is completed
with `exitPrice` the current price and `pnlPercent` per the LONG/SHORT rule,
and moved from the pending map to the completed list; the outcome rule is
WIN above 0.5, LOSS below −0.5, else WIN iff pnl ≥ 0; concretely, the LONG
at entry 100 evaluated 16 minutes later at 102 completes as WIN with
exitPrice 102 and pnlPercent 2. -/
theorem evaluatePending_spec :
    (∀ (now : ℤ) (getPrice : String → Option ℚ) (acc : TrackerState)
      (r : SignalRecord), r.outcome = Outcome.pending →
      (now - r.timestamp < evaluationTimeMs ∨ getPrice r.symbol = Option.none) →
      evalStep now getPrice acc r = { acc with signals := acc.signals ++ [r] }) ∧
    (∀ (now : ℤ) (getPrice : String → Option ℚ) (acc : TrackerState)
      (r : SignalRecord) (p : ℚ), r.outcome = Outcome.pending →
      evaluationTimeMs ≤ now - r.timestamp →
      getPrice r.symbol = some p →
      acc.completedSignals.length < maxStoredSignals →
      evalStep now getPrice acc r =
        { signals := acc.signals
        , completedSignals := acc.completedSignals ++
            [{ r with
              outcome := outcomeOf (pnlPercentOf r.direction r.entryPrice p),
              exitPrice := some p,
              pnlPercent := some (pnlPercentOf r.direction r.entryPrice p) }] }) ∧
    (∀ pnl : ℚ, (pnl > 0.5 → outcomeOf pnl = Outcome.win) ∧
      (pnl < -0.5 → outcomeOf pnl = Outcome.loss) ∧
      (-0.5 ≤ pnl → pnl ≤ 0.5 →
        outcomeOf pnl = if pnl ≥ 0 then Outcome.win else Outcome.loss)) ∧
    evaluatePendingSignals 960000 demoGetPrice
        { signals := [demoRecord], completedSignals := [] } =
      { signals := []
      , completedSignals := [{ demoRecord with
          outcome := Outcome.win,
          exitPrice := some 102, pnlPercent := some 2 }] } := by
  refine ⟨?_, ?_, ?_, ?_⟩
  · intro now getPrice acc r hpend helig
    unfold evalStep
    rw [if_neg (by simp [hpend])]
    rcases helig with h | h
    · rw [if_pos h]
    · by_cases ht : now - r.timestamp < evaluationTimeMs
      · rw [if_pos ht]
      · rw [if_neg ht, h]
  · intro now getPrice acc r p hpend ht hp hlen
    unfold evalStep
    rw [if_neg (by simp [hpend]), if_neg (by omega), hp]
    have hlen2 : ¬ (acc.completedSignals ++
        [{ r with
          outcome := outcomeOf (pnlPercentOf r.direction r.entryPrice p),
          exitPrice := some p,
          pnlPercent := some (pnlPercentOf r.direction r.entryPrice p) }]).length >
        maxStoredSignals := by
      simp only [List.length_append, List.length_cons, List.length_nil]
      omega
    simp only [if_neg hlen2]
  · intro pnl
    refine ⟨fun h => ?_, fun h => ?_, fun h1 h2 => ?_⟩
    · unfold outcomeOf
      rw [if_pos h]
    · unfold outcomeOf
      rw [if_neg (by linarith), if_pos h]
    · unfold outcomeOf
      rw [if_neg (by linarith), if_neg (by linarith)]
  · norm_num +decide [evaluatePendingSignals, evalStep, demoRecord, demoGetPrice,
      outcomeOf, pnlPercentOf, evaluationTimeMs, maxStoredSignals, List.foldl]

/-- C3 witness: a 1-minute-old record stays pending; the eligible branch
instantiated at the scenario values. -/
theorem evaluatePending_spec_witness :
    evalStep 60000 demoGetPrice { signals := [], completedSignals := [] } demoRecord =
      { signals := [demoRecord], completedSignals := [] } := by
  have h := evaluatePending_spec.1 60000 demoGetPrice
    { signals := [], completedSignals := [] } demoRecord
    (by norm_num [demoRecord]) (Or.inl (by norm_num [demoRecord, evaluationTimeMs]))
  simpa using h

/-- C5 counterexample: two alerts with equal `|change24h| = 12` keep the
store's insertion order in both input orders, so the tie is not broken by
symbol (by any symbol rule, one of the two runs would have to reorder). -/
theorem volatility_tie_keeps_insertion_order :
    (volatilityDetect 0 [symbolDataOf "ZZZUSDT" 12, symbolDataOf "AAAUSDT" (-12)]).map
        (fun a => (a.symbol, |a.change24h|)) = [("ZZZUSDT", 12), ("AAAUSDT", 12)] ∧
    (volatilityDetect 0 [symbolDataOf "AAAUSDT" (-12), symbolDataOf "ZZZUSDT" 12]).map
        (fun a => (a.symbol, |a.change24h|)) = [("AAAUSDT", 12), ("ZZZUSDT", 12)] := by
  constructor <;>
    norm_num +decide [volatilityDetect, volatilityAlertsUnsorted, symbolDataOf, tickerOf,
      sortDesc, insertDesc, minChange24h, criticalChange24h, List.filterMap_cons,
      abs_of_nonneg, abs_of_nonpos]

/-- C5 amended: `detect()` returns the eligible alerts sorted by descending
`|change24h|` (a permutation of the loop's list); within each equal-
`|change24h|` class the stable sort keeps the store's iteration order — no
symbol tiebreak is applied. -/
theorem volatility_detect_sorted :
    ∀ (now : ℤ) (symbols : List SymbolData),
      List.Pairwise (fun a b => |b.change24h| ≤ |a.change24h|)
        (volatilityDetect now symbols) ∧
      List.Perm (volatilityDetect now symbols) (volatilityAlertsUnsorted now symbols) ∧
      (∀ c : ℚ, (volatilityDetect now symbols).filter
          (fun a => decide (|a.change24h| = c)) =
        (volatilityAlertsUnsorted now symbols).filter
          (fun a => decide (|a.change24h| = c))) := by
  intro now symbols
  refine ⟨pairwise_sortDesc _ _, sortDesc_perm _ _, fun c => sortDesc_filter_key _ _ c⟩

/-- C6 counterexample: with a genuine spike and 24h quote volume exactly
equal to the $1M minimum, `detect` does emit an alert — the cut-off drops
only volumes strictly below the minimum, so "equal ⇒ excluded" is false. -/
theorem volume_equal_min_volume_emits :
    volumeEdgeSymbol.current.quoteVolume = 1000000 ∧
    (volumeDetectSymbol spikeSnapshots volumeEdgeSymbol 0).isSome = true ∧
    volumeDetect 0 [(volumeEdgeSymbol, spikeSnapshots)] ≠ [] := by
  refine ⟨by norm_num [volumeEdgeSymbol, tickerOf], ?_, ?_⟩ <;>
    norm_num +decide [volumeDetect, volumeDetectSymbol, spikeSnapshots, volumeEdgeSymbol,
      tickerOf, jsSlice, jsSliceLast, spikeMultiplier, sortDesc, insertDesc,
      List.filterMap_cons]

/-- C6 amended: an alert is emitted only if the computed multiplier is at
least the 3× spike threshold and the 24h quote volume is at least $1M; and
the cut-off excludes exactly the symbols strictly below $1M (any symbol
below $1M yields no alert, while `volume_equal_min_volume_emits` shows a
symbol exactly at $1M is emitted). -/
theorem volume_emit_conditions :
    (∀ (snapshots : List VolumePoint) (sd : SymbolData) (now : ℤ)
      (alert : VolumeAlert), volumeDetectSymbol snapshots sd now = some alert →
      spikeMultiplier ≤ alert.multiplier ∧ 1000000 ≤ sd.current.quoteVolume) ∧
    (∀ (snapshots : List VolumePoint) (sd : SymbolData) (now : ℤ),
      sd.current.quoteVolume < 1000000 →
      volumeDetectSymbol snapshots sd now = Option.none) := by
  constructor
  · intro snapshots sd now alert h
    unfold volumeDetectSymbol at h
    split at h
    · exact Option.noConfusion h
    · dsimp only at h
      split at h
      · exact Option.noConfusion h
      · split at h
        · exact Option.noConfusion h
        · split at h
          · exact Option.noConfusion h
          · next hvol =>
            split at h
            · next hmult =>
              obtain rfl := (Option.some.inj h).symm
              exact ⟨hmult, by linarith [not_lt.mp hvol]⟩
            · exact Option.noConfusion h
  · intro snapshots sd now hvol
    unfold volumeDetectSymbol
    dsimp only
    split_ifs <;> rfl

/-- C6 witness: a sub-minimum symbol is never emitted. -/
theorem volume_emit_conditions_witness :
    volumeDetectSymbol [] volumeLowSymbol 0 = Option.none :=
  volume_emit_conditions.2 [] volumeLowSymbol 0
    (by norm_num [volumeLowSymbol, symbolDataOf, tickerOf])

theorem find?_mapSet_self {α : Type} (m : List (String × α)) (k : String) (v : α) :
    (mapSet m k v).find? (fun p => decide (p.1 = k)) = some (k, v) := by
  unfold mapSet
  by_cases h : m.any (fun p => decide (p.1 = k))
  · rw [if_pos h]
    induction m with
    | nil => simp at h
    | cons p m ih =>
      by_cases hpk : p.1 = k
      · rw [List.map_cons, if_pos hpk]
        exact List.find?_cons_of_pos _ (by simp)
      · have h2 : m.any (fun q => decide (q.1 = k)) = true := by
          rcases List.any_eq_true.mp h with ⟨q, hq, hqk⟩
          rcases List.mem_cons.mp hq with rfl | hq2
          · exact absurd (of_decide_eq_true hqk) hpk
          · exact List.any_eq_true.mpr ⟨q, hq2, hqk⟩
        rw [List.map_cons, if_neg hpk]
        rw [List.find?_cons_of_neg _ (by simp [hpk])]
        exact ih h2
  · rw [if_neg h]
    induction m with
    | nil => simp [List.find?]
    | cons p m ih =>
      have hpk : ¬ p.1 = k := by
        intro hk
        exact h (List.any_eq_true.mpr ⟨p, List.mem_cons_self p m, decide_eq_true hk⟩)
      have h2 : ¬ m.any (fun q => decide (q.1 = k)) = true := by
        intro hk
        rcases List.any_eq_true.mp hk with ⟨q, hq, hqk⟩
        exact h (List.any_eq_true.mpr ⟨q, List.mem_cons_of_mem p hq, hqk⟩)
      rw [List.cons_append, List.find?_cons_of_neg _ (by simp [hpk])]
      exact ih h2

theorem mapLookup_mapSet_self {α : Type} (m : List (String × α)) (k : String) (v : α) :
    mapLookup (mapSet m k v) k = some v := by
  unfold mapLookup
  rw [find?_mapSet_self]
  rfl

/-- C7 counterexample: a batch ticker whose `eventTime` (500) is older than
the stored `current.eventTime` (1000) still replaces the stored ticker, so
`current.eventTime` decreases — out-of-order tickers are not ignored. -/
theorem dataStore_accepts_stale_eventTime :
    (mapLookup (update 2000 [btcTicker0] store1).1.symbols "BTCUSDT").map
        (fun sd => sd.current.eventTime) = some 500 ∧
    btcTicker0.eventTime < btcTicker1.eventTime := by
  constructor
  · norm_num +decide [update, updateSymbol, store1, btcTicker0, btcTicker1, tickerOf,
      mapLookup, mapSet, List.foldl, List.find?, velocityWindowMs, volumeWindowMs]
  · norm_num [btcTicker0, btcTicker1, tickerOf]

/-- C7 amended: `updateSymbol` replaces `current` unconditionally, so after
any single-ticker batch the stored `current` of an already-present symbol is
the incoming ticker, whatever its `eventTime`. -/
theorem dataStore_update_overwrites :
    ∀ (st : DataStoreState) (t : TickerData) (d : SymbolData) (now : ℤ),
      mapLookup st.symbols t.symbol = some d →
      (mapLookup (update now [t] st).1.symbols t.symbol).map (fun sd => sd.current) =
        some t := by
  intro st t d now hd
  unfold update
  simp only [List.foldl, hd]
  split <;>
    · show Option.map _ (mapLookup (mapSet st.symbols t.symbol (updateSymbol d t now))
        t.symbol) = some t
      rw [mapLookup_mapSet_self]
      rfl

/-- C7 witness: the overwrite theorem at the concrete stale-ticker store. -/
theorem dataStore_update_overwrites_witness :
    (mapLookup (update 2000 [btcTicker0] store1).1.symbols btcTicker0.symbol).map
        (fun sd => sd.current) = some btcTicker0 := by
  have h := dataStore_update_overwrites store1 btcTicker0 btcStored 2000
    (by norm_num +decide [store1, btcStored, mapLookup, List.find?_cons, btcTicker0,
      btcTicker1, tickerOf])
  exact h

/-- C8: the per-(type, symbol) cooldown never suppresses anything — the id
checked by `shouldNotify` is built from the camelCase key
("smartSignals-BTCUSDT-0") while `addNotification` records the
SCREAMING_SNAKE type ("SMART_SIGNAL-BTCUSDT-0"), so two smart-signal calls
for the same symbol 30 s apart (same minute bucket) both enqueue. -/
theorem notification_cooldown_never_fires :
    (addSmartSignal defaultNotificationConfig notifState0 0 "BTCUSDT"
      TradeSide.long 70 "MOMENTUM").pendingNotifications.length = 1 ∧
    (addSmartSignal defaultNotificationConfig notifState0 0 "BTCUSDT"
      TradeSide.long 70 "MOMENTUM").sentNotifications = ["SMART_SIGNAL-BTCUSDT-0"] ∧
    shouldNotify defaultNotificationConfig
      (addSmartSignal defaultNotificationConfig notifState0 0 "BTCUSDT"
        TradeSide.long 70 "MOMENTUM") 30000 "smartSignals" "BTCUSDT" (some 70) = true ∧
    (addSmartSignal defaultNotificationConfig
      (addSmartSignal defaultNotificationConfig notifState0 0 "BTCUSDT"
        TradeSide.long 70 "MOMENTUM") 30000 "BTCUSDT"
      TradeSide.long 70 "MOMENTUM").pendingNotifications.length = 2 := by
  refine ⟨?_, ?_, ?_, ?_⟩ <;> decide

/-- C9 counterexample: with an unchanged store, the first `detect()` call
reports the 1 %/min symbol as Accelerating (acceleration 1 against the empty
cache) while the immediately following call reports it as Steady with
acceleration 0 — `detect()` mutates the previous-velocity cache, so two
successive calls return different alert lists. -/
theorem velocity_detect_not_pure :
    ((velocityDetect 0 [velSymbol] []).1.map
        (fun a => (a.velocity, a.acceleration, a.trend)) =
      [(1, 1, VelTrend.accelerating)]) ∧
    ((velocityDetect 0 [velSymbol] (velocityDetect 0 [velSymbol] []).2).1.map
        (fun a => (a.velocity, a.acceleration, a.trend)) =
      [(1, 0, VelTrend.steady)]) := by
  constructor <;>
    norm_num +decide [velocityDetect, velocityStep, calculateVelocity, velSymbol,
      symbolDataOf, tickerOf, mapLookup, mapSet, sortDesc, insertDesc, minVelocity,
      accelerationThreshold, List.find?, List.foldl, abs_of_nonneg]

theorem find?_map_replace_ne {α : Type} (m : List (String × α)) (k : String)
    (v : α) (k2 : String) (hne : k2 ≠ k) :
    (m.map (fun p => if p.1 = k then (k, v) else p)).find?
        (fun p => decide (p.1 = k2)) =
      m.find? (fun p => decide (p.1 = k2)) := by
  induction m with
  | nil => rfl
  | cons p m ih =>
    rw [List.map_cons]
    by_cases hpk : p.1 = k
    · rw [if_pos hpk]
      rw [List.find?_cons_of_neg _ (by simp [Ne.symm hne]),
        List.find?_cons_of_neg _ (by simp [hpk, Ne.symm hne])]
      exact ih
    · rw [if_neg hpk]
      by_cases hp2 : p.1 = k2
      · rw [List.find?_cons_of_pos _ (by simp [hp2]),
          List.find?_cons_of_pos _ (by simp [hp2])]
      · rw [List.find?_cons_of_neg _ (by simp [hp2]),
          List.find?_cons_of_neg _ (by simp [hp2])]
        exact ih

theorem find?_append_single_ne {α : Type} (m : List (String × α)) (k : String)
    (v : α) (k2 : String) (hne : k2 ≠ k) :
    (m ++ [(k, v)]).find? (fun p => decide (p.1 = k2)) =
      m.find? (fun p => decide (p.1 = k2)) := by
  induction m with
  | nil => simp [List.find?, Ne.symm hne]
  | cons p m ih =>
    rw [List.cons_append]
    by_cases hp2 : p.1 = k2
    · rw [List.find?_cons_of_pos _ (by simp [hp2]),
        List.find?_cons_of_pos _ (by simp [hp2])]
    · rw [List.find?_cons_of_neg _ (by simp [hp2]),
        List.find?_cons_of_neg _ (by simp [hp2])]
      exact ih

theorem mapLookup_mapSet_ne {α : Type} (m : List (String × α)) (k : String)
    (v : α) (k2 : String) (hne : k2 ≠ k) :
    mapLookup (mapSet m k v) k2 = mapLookup m k2 := by
  unfold mapLookup mapSet
  by_cases h : m.any (fun p => decide (p.1 = k))
  · rw [if_pos h, find?_map_replace_ne m k v k2 hne]
  · rw [if_neg h, find?_append_single_ne m k v k2 hne]

theorem velocityFold_alerts (now : ℤ) :
    ∀ (symbols : List SymbolData)
      (acc : List VelocityAlert × List (String × ℚ)) (m : List (String × ℚ)),
      (∀ sd ∈ symbols, mapLookup acc.2 sd.symbol = mapLookup m sd.symbol) →
      (symbols.map (fun sd => sd.symbol)).Nodup →
      (symbols.foldl (velocityStep now) acc).1 =
        acc.1 ++ symbols.filterMap (alertOf now m) := by
  intro symbols
  induction symbols with
  | nil =>
    intro acc m _ _
    simp
  | cons sd rest ih =>
    intro acc m hagree hnd
    rw [List.map_cons, List.nodup_cons] at hnd
    rw [List.foldl_cons]
    have hlook : mapLookup acc.2 sd.symbol = mapLookup m sd.symbol :=
      hagree sd (List.mem_cons_self sd rest)
    by_cases hlen : sd.priceHistory.length < 2
    · have hstep : velocityStep now acc sd = acc := by
        unfold velocityStep
        rw [if_pos hlen]
      have halert : alertOf now m sd = Option.none := by
        unfold alertOf
        rw [if_pos hlen]
      rw [hstep, List.filterMap_cons_none halert]
      exact ih acc m (fun s2 h2 => hagree s2 (List.mem_cons_of_mem sd h2)) hnd.2
    · have hstep1 : (velocityStep now acc sd).1 = acc.1 ++ (alertOf now m sd).toList := by
        unfold velocityStep alertOf
        rw [if_neg hlen, if_neg hlen]
        dsimp only
        rw [hlook]
        by_cases hmin : |calculateVelocity sd.priceHistory| ≥ minVelocity
        · rw [if_pos hmin, if_pos hmin]
          rfl
        · rw [if_neg hmin, if_neg hmin]
          simp
      have hstep2 : (velocityStep now acc sd).2 =
          mapSet acc.2 sd.symbol (calculateVelocity sd.priceHistory) := by
        unfold velocityStep
        rw [if_neg hlen]
      have hagree2 : ∀ s2 ∈ rest,
          mapLookup (velocityStep now acc sd).2 s2.symbol = mapLookup m s2.symbol := by
        intro s2 h2
        have hne : s2.symbol ≠ sd.symbol := by
          intro he
          exact hnd.1 (he ▸ List.mem_map_of_mem (fun x => x.symbol) h2)
        rw [hstep2, mapLookup_mapSet_ne _ _ _ _ hne]
        exact hagree s2 (List.mem_cons_of_mem sd h2)
      rw [ih (velocityStep now acc sd) m hagree2 hnd.2, hstep1]
      cases halert : alertOf now m sd with
      | none => simp [List.filterMap_cons_none halert]
      | some x => simp [List.filterMap_cons_some halert]

theorem velocityFold_map_notmem (now : ℤ) :
    ∀ (symbols : List SymbolData)
      (acc : List VelocityAlert × List (String × ℚ)) (key : String),
      key ∉ symbols.map (fun sd => sd.symbol) →
      mapLookup (symbols.foldl (velocityStep now) acc).2 key = mapLookup acc.2 key := by
  intro symbols
  induction symbols with
  | nil =>
    intro acc key _
    rfl
  | cons sd rest ih =>
    intro acc key hkey
    rw [List.map_cons, List.mem_cons] at hkey
    push_neg at hkey
    rw [List.foldl_cons]
    have hm2 : mapLookup (velocityStep now acc sd).2 key = mapLookup acc.2 key := by
      unfold velocityStep
      by_cases hlen : sd.priceHistory.length < 2
      · rw [if_pos hlen]
      · rw [if_neg hlen]
        dsimp only
        exact mapLookup_mapSet_ne _ _ _ _ hkey.1
    rw [ih (velocityStep now acc sd) key hkey.2, hm2]

theorem velocityFold_map_lookup (now : ℤ) :
    ∀ (symbols : List SymbolData)
      (acc : List VelocityAlert × List (String × ℚ)),
      (symbols.map (fun sd => sd.symbol)).Nodup →
      ∀ sd ∈ symbols, ¬ sd.priceHistory.length < 2 →
      mapLookup (symbols.foldl (velocityStep now) acc).2 sd.symbol =
        some (calculateVelocity sd.priceHistory) := by
  intro symbols
  induction symbols with
  | nil =>
    intro acc _ sd h
    exact absurd h (List.not_mem_nil sd)
  | cons x rest ih =>
    intro acc hnd sd hmem hlen
    rw [List.map_cons, List.nodup_cons] at hnd
    rw [List.foldl_cons]
    rcases List.mem_cons.mp hmem with rfl | hmem2
    · have hm2 : mapLookup (velocityStep now acc sd).2 sd.symbol =
          some (calculateVelocity sd.priceHistory) := by
        unfold velocityStep
        rw [if_neg hlen]
        dsimp only
        rw [mapLookup_mapSet_self]
      rw [velocityFold_map_notmem now rest (velocityStep now acc sd) sd.symbol hnd.1]
      exact hm2
    · exact ih (velocityStep now acc x) hnd.2 sd hmem2 hlen

set_option maxHeartbeats 1000000 in
/-- C9 amended: `detect()` is not pure — it rewrites the previous-velocity
cache — but the two calls are related exactly: with the store unchanged, the
second call emits the same symbols with the same velocities, each with
acceleration 0 and trend Steady (its acceleration is measured against the
velocity the first call just cached). -/
theorem velocity_second_call :
    ∀ (now1 now2 : ℤ) (symbols : List SymbolData) (prev : List (String × ℚ)),
      (symbols.map (fun sd => sd.symbol)).Nodup →
      (velocityDetect now2 symbols (velocityDetect now1 symbols prev).2).1 =
        (velocityDetect now1 symbols prev).1.map
          (fun a => { a with
            acceleration := 0,
            trend := VelTrend.steady,
            timestamp := now2 }) := by
  intro now1 now2 symbols prev hnd
  unfold velocityDetect
  dsimp only
  have h1 := velocityFold_alerts now1 symbols ([], prev) prev (fun _ _ => rfl) hnd
  have h2 := velocityFold_alerts now2 symbols
    ([], (symbols.foldl (velocityStep now1) ([], prev)).2)
    (symbols.foldl (velocityStep now1) ([], prev)).2 (fun _ _ => rfl) hnd
  rw [h1, h2]
  have hpt : ∀ sd ∈ symbols,
      alertOf now2 (symbols.foldl (velocityStep now1) ([], prev)).2 sd =
        (alertOf now1 prev sd).map
          (fun a => { a with
            acceleration := 0,
            trend := VelTrend.steady,
            timestamp := now2 }) := by
    intro sd hmem
    unfold alertOf
    by_cases hlen : sd.priceHistory.length < 2
    · rw [if_pos hlen, if_pos hlen]
      rfl
    · rw [if_neg hlen, if_neg hlen]
      dsimp only
      by_cases hmin : |calculateVelocity sd.priceHistory| ≥ minVelocity
      · rw [if_pos hmin, if_pos hmin]
        rw [velocityFold_map_lookup now1 symbols ([], prev) hnd sd hmem hlen]
        simp only [Option.map_some, Option.getD_some, Option.some.injEq,
          VelocityAlert.mk.injEq, sub_self]
        norm_num [accelerationThreshold]
      · rw [if_neg hmin, if_neg hmin]
        rfl
  have hfm : symbols.filterMap
      (alertOf now2 (symbols.foldl (velocityStep now1) ([], prev)).2) =
        (symbols.filterMap (alertOf now1 prev)).map
          (fun a => { a with
            acceleration := 0,
            trend := VelTrend.steady,
            timestamp := now2 }) := by
    rw [List.map_filterMap]
    exact List.filterMap_congr (fun sd hmem => hpt sd hmem)
  rw [List.nil_append, List.nil_append, hfm]
  exact sortDesc_map (fun (a : VelocityAlert) => |a.velocity|)
    (fun (a : VelocityAlert) => |a.velocity|)
    (fun a => { a with
      acceleration := 0,
      trend := VelTrend.steady,
      timestamp := now2 })
    (fun a => rfl) _

/-- C9 witness: the two-call relationship instantiated on the concrete
one-symbol store. -/
theorem velocity_second_call_witness :
    (velocityDetect 60000 [velSymbol] (velocityDetect 0 [velSymbol] []).2).1 =
      (velocityDetect 0 [velSymbol] []).1.map
        (fun a => { a with
          acceleration := 0,
          trend := VelTrend.steady,
          timestamp := 60000 }) :=
  velocity_second_call 0 60000 [velSymbol] [] (by simp)

end Strikechart
